import Mathlib

/-!
# WebhookCertManager: the generic webhook configuration controller

A shallow embedding of `pkg/controller/genericwebhookconfiguration`
(`element.go`, `client.go`, `certhandler.go`, `controller.go`) and theorems about it.

Conventions of the embedding.

* A Go function returning `(T, error)` is a function into `Res T`: `ok v` for a nil error,
  `err e` for a non-nil error (every caller in the package drops the value in that case) and
  `fault` for a run-time panic (nil dereference).
* Calls on collaborators (the informer cache, the clientset, the certificate provisioner, a
  `CertsHandler`) are state passing over a state type `σ` of the outside world.
* `[]byte` is `List Nat`; Go maps are association lists read with `List.lookup`; a nil map is
  `none` where the code tests for nil and the empty list where it only reads.
* Values are immutable, so `deepCopy` is the identity and the in-place mutation of
  `&webhooks[i]` is an explicit write-back into the clone.
-/

namespace WebhookCertManager

/-! ## Errors and results -/

/-- Reasons of a Kubernetes API status error (`metav1.StatusReason`), as far as they matter. -/
inductive StatusReason where
  | NotFound
  | AlreadyExists
  | Conflict
  | Unknown
  deriving DecidableEq, Repr

/-- Error values that travel through the package. -/
inductive Err where
  /-- An API status error (`apierrors.StatusError`). -/
  | status (reason : StatusReason)
  /-- The result of `fmt.Errorf("unsupported type: %T, ...")`. -/
  | unsupportedType (typeName : String)
  /-- The result of `fmt.Errorf("failed to find the secret name by the webhook name: %q", ...)`. -/
  | secretNameNotFound (webhookName : String)
  /-- The result of `fmt.Errorf("failed to find required key: %q in the secret", key)`. -/
  | requiredKeyMissing (key : String)
  /-- The result of `fmt.Errorf("service and URL can't be set at the same time ...")`. -/
  | serviceAndURL
  /-- The result of `fmt.Errorf("one of service and URL need to be set ...")`. -/
  | neitherServiceNorURL
  /-- The result of `fmt.Errorf("unexpected getMutatingWebhookConfig")`. -/
  | unexpectedGetMutatingWebhookConfig
  /-- The result of `fmt.Errorf("unexpected getValidatingWebhookConfig")`. -/
  | unexpectedGetValidatingWebhookConfig
  /-- Any error produced by a collaborator (URL parsing, provisioner, transport). -/
  | other (msg : String)
  deriving DecidableEq, Repr

/-- The predicate `apierrors.IsNotFound` on a non-nil error. -/
def IsNotFound : Err → Bool
  | .status .NotFound => true
  | _ => false

/-- Outcome of a Go call returning `(T, error)`: a value, an error, or a run-time panic. -/
inductive Res (α : Type) where
  | ok (a : α)
  | err (e : Err)
  | fault
  deriving DecidableEq, Repr

/-! ## Byte strings and strings -/

/-- A Go byte slice. -/
abbrev Bytes := List Nat

/-- Go `bytes.Contains(b, sub)`: `sub` occurs in `b` at some offset. -/
def bytesContains : Bytes → Bytes → Bool
  | [], sub => sub.isEmpty
  | x :: xs, sub => sub.isPrefixOf (x :: xs) || bytesContains xs sub

/-- Go `strings.HasPrefix(s, p)`. -/
def HasPrefix (s p : String) : Bool := p.data.isPrefixOf s.data

/-- Go `strings.TrimPrefix(s, p)`. -/
def TrimPrefix (s p : String) : String :=
  if HasPrefix s p then String.mk (s.data.drop p.data.length) else s

/-- Go `strings.Split(s, "/")` on the characters of `s`. -/
def splitSeparator : List Char → List (List Char)
  | [] => [[]]
  | c :: cs =>
    if c = '/' then [] :: splitSeparator cs
    else
      match splitSeparator cs with
      | [] => [[c]]
      | w :: ws => (c :: w) :: ws

/-! ## Kubernetes objects -/

/-- The type `apitypes.NamespacedName`. -/
structure NamespacedName where
  Namespace : String
  Name : String
  deriving DecidableEq, Repr

/-- The library function `apitypes.NewNamespacedNameFromString`: the string is split at `/`;
exactly two parts give namespace and name, anything else gives the zero value. -/
def NewNamespacedNameFromString (s : String) : NamespacedName :=
  match splitSeparator s.data with
  | [ns, name] => { Namespace := String.mk ns, Name := String.mk name }
  | _ => { Namespace := "", Name := "" }

/-- The type `metav1.TypeMeta`. -/
structure TypeMeta where
  Kind : String
  APIVersion : String
  deriving DecidableEq, Repr

/-- The fields of `metav1.ObjectMeta` that the package can observe. `Annotations` is a Go map
that may be nil. -/
structure ObjectMeta where
  Name : String
  Namespace : String
  ResourceVersion : String
  Labels : Option (List (String × String))
  Annotations : Option (List (String × String))
  deriving DecidableEq, Repr

/-- The type `admissionregistrationv1beta1.ServiceReference`. -/
structure ServiceReference where
  Namespace : String
  Name : String
  Path : Option String
  deriving DecidableEq, Repr

/-- The type `admissionregistrationv1beta1.WebhookClientConfig`. -/
structure WebhookClientConfig where
  URL : Option String
  Service : Option ServiceReference
  CABundle : Bytes
  deriving DecidableEq, Repr

/-- The type `admissionregistrationv1beta1.Webhook`; the fields the package never reads are kept
as uninterpreted data. -/
structure Webhook where
  Name : String
  ClientConfig : WebhookClientConfig
  Rules : List String
  FailurePolicy : Option String
  NamespaceSelector : Option (List (String × String))
  deriving DecidableEq, Repr

/-- The type `admissionregistrationv1beta1.MutatingWebhookConfiguration`. -/
structure MutatingWebhookConfiguration where
  TypeMeta : TypeMeta
  ObjectMeta : ObjectMeta
  Webhooks : List Webhook
  deriving DecidableEq, Repr

/-- The type `admissionregistrationv1beta1.ValidatingWebhookConfiguration`. -/
structure ValidatingWebhookConfiguration where
  TypeMeta : TypeMeta
  ObjectMeta : ObjectMeta
  Webhooks : List Webhook
  deriving DecidableEq, Repr

/-- The type `corev1.Secret`, with `Data` a Go map from key to bytes. -/
structure Secret where
  TypeMeta : TypeMeta
  ObjectMeta : ObjectMeta
  Data : List (String × Bytes)
  deriving DecidableEq, Repr

/-- A `runtime.Object` handed to the controller: one of the two webhook configuration kinds, or
an object of some other type. -/
inductive RuntimeObject where
  | Mutating (typed : MutatingWebhookConfiguration)
  | Validating (typed : ValidatingWebhookConfiguration)
  | Other (typeName : String)
  deriving DecidableEq, Repr

/-- The library function `meta.Accessor` on the objects above. -/
def metaAccessor : RuntimeObject → Except Err ObjectMeta
  | .Mutating typed => .ok typed.ObjectMeta
  | .Validating typed => .ok typed.ObjectMeta
  | .Other typeName => .error (.other ("object does not implement the Object interfaces: " ++ typeName))

/-- The type `certprovisioner.Certs`: the three byte strings the package reads and writes. -/
structure Certs where
  Key : Bytes
  Cert : Bytes
  CACert : Bytes
  deriving DecidableEq, Repr

/-- The type `url.URL`, reduced to the component the package reads. -/
structure URL where
  Host : String
  deriving DecidableEq, Repr

/-- Library functions the package calls and that live outside the repository. -/
structure Lib where
  /-- The function `url.Parse`. -/
  urlParse : String → Except Err URL
  /-- The function `certprovisioner.ServiceToCommonName(serviceNamespace, serviceName)`. -/
  ServiceToCommonName : String → String → String

/-! ## element.go -/

/-- The type `webhookType`. -/
inductive webhookType where
  | mutatingWebhookType
  | validatingWebhookType
  deriving DecidableEq, Repr

/-- The interface `webhookConfigElement` with its two implementations
`mutatingWebhookElement` and `validatingWebhookElement`. -/
inductive webhookConfigElement where
  | mutatingWebhookElement (webhook : MutatingWebhookConfiguration)
  | validatingWebhookElement (webhook : ValidatingWebhookConfiguration)
  deriving DecidableEq, Repr

/-- The constructor `newMutatingWebhookElement`. -/
def newMutatingWebhookElement (webhook : MutatingWebhookConfiguration) : webhookConfigElement :=
  .mutatingWebhookElement webhook

/-- The constructor `newValidatingWebhookElement`. -/
def newValidatingWebhookElement (webhook : ValidatingWebhookConfiguration) :
    webhookConfigElement :=
  .validatingWebhookElement webhook

/-- The function `newWebhookElement`. -/
def newWebhookElement (webhookConfiguration : RuntimeObject) : Except Err webhookConfigElement :=
  match webhookConfiguration with
  | .Mutating typed => .ok (newMutatingWebhookElement typed)
  | .Validating typed => .ok (newValidatingWebhookElement typed)
  | .Other typeName => .error (.unsupportedType typeName)

namespace webhookConfigElement

/-- The method `getType`. -/
def getType : webhookConfigElement → webhookType
  | .mutatingWebhookElement _ => .mutatingWebhookType
  | .validatingWebhookElement _ => .validatingWebhookType

/-- The method `getMutatingWebhookConfig`. -/
def getMutatingWebhookConfig : webhookConfigElement → Except Err MutatingWebhookConfiguration
  | .mutatingWebhookElement webhook => .ok webhook
  | .validatingWebhookElement _ => .error .unexpectedGetMutatingWebhookConfig

/-- The method `getValidatingWebhookConfig`. -/
def getValidatingWebhookConfig :
    webhookConfigElement → Except Err ValidatingWebhookConfiguration
  | .mutatingWebhookElement _ => .error .unexpectedGetValidatingWebhookConfig
  | .validatingWebhookElement webhook => .ok webhook

/-- The method `deepCopy`: `DeepCopy` of the wrapped configuration, wrapped again. -/
def deepCopy : webhookConfigElement → webhookConfigElement
  | .mutatingWebhookElement webhook => .mutatingWebhookElement webhook
  | .validatingWebhookElement webhook => .validatingWebhookElement webhook

/-- The method `deepEqual`: downcast the other element to the receiver's kind, `false` when
that fails, `reflect.DeepEqual` of the two configurations otherwise. -/
def deepEqual (e other : webhookConfigElement) : Bool :=
  match e with
  | .mutatingWebhookElement webhook =>
    match other.getMutatingWebhookConfig with
    | .error _ => false
    | .ok otherWebhookConfig => decide (webhook = otherWebhookConfig)
  | .validatingWebhookElement webhook =>
    match other.getValidatingWebhookConfig with
    | .error _ => false
    | .ok otherWebhookConfig => decide (webhook = otherWebhookConfig)

/-- The method `getWebhooks`. -/
def getWebhooks : webhookConfigElement → List Webhook
  | .mutatingWebhookElement webhook => webhook.Webhooks
  | .validatingWebhookElement webhook => webhook.Webhooks

/-- Write-back of the slice returned by `getWebhooks`: the slice aliases the wrapped
configuration, so assignments through `&webhooks[i]` change the element itself. -/
def setWebhooks (e : webhookConfigElement) (webhooks : List Webhook) : webhookConfigElement :=
  match e with
  | .mutatingWebhookElement webhook => .mutatingWebhookElement { webhook with Webhooks := webhooks }
  | .validatingWebhookElement webhook =>
    .validatingWebhookElement { webhook with Webhooks := webhooks }

end webhookConfigElement

/-! ## Collaborators -/

/-- The part of `kubernetes.Interface` the package calls: create and update of secrets in a
namespace, update of the two cluster-scoped webhook configuration kinds. -/
structure ClientSet (σ : Type) where
  SecretsCreate : String → Secret → σ → Res Secret × σ
  SecretsUpdate : String → Secret → σ → Res Secret × σ
  MutatingWebhookConfigurationsUpdate :
    MutatingWebhookConfiguration → σ → Res MutatingWebhookConfiguration × σ
  ValidatingWebhookConfigurationsUpdate :
    ValidatingWebhookConfiguration → σ → Res ValidatingWebhookConfiguration × σ

/-- The part of `informers.SharedInformerFactory` the package calls:
`Core().V1().Secrets().Lister().Secrets(namespace).Get(name)`. -/
structure Informers (σ : Type) where
  SecretsGet : String → String → σ → Res Secret × σ

/-- The interface `certprovisioner.CertProvisioner`. -/
structure CertProvisioner (σ : Type) where
  ProvisionServingCert : σ → Res Certs × σ

/-- The interface `CertsHandler`. `Skip` answers `none` when the call panics. A method that
returns a nil `*Certs` with a nil error is a `fault`: every caller dereferences the result
before it calls anything else. -/
structure CertsHandler (σ : Type) where
  Skip : String → σ → Option Bool × σ
  Read : String → σ → Res Certs × σ
  Write : String → σ → Res Certs × σ

/-- The interface `CertsHandlerFactory`. A nil `CertsHandler` is `none`. -/
structure CertsHandlerFactory (σ : Type) where
  New : RuntimeObject → σ → Res (Option (CertsHandler σ)) × σ

/-- Sequencing of two state-passing calls: an error or a panic of the first ends the run. -/
def andThen {σ α β : Type} (m : Res α × σ) (f : α → σ → Res β × σ) : Res β × σ :=
  match m with
  | (.ok a, w) => f a w
  | (.err e, w) => (.err e, w)
  | (.fault, w) => (.fault, w)

/-! ## client.go -/

/-- The type `mutatingWebhookClient` (underlying type `webhookClientImpl`). -/
structure mutatingWebhookClient (σ : Type) where
  clientSet : ClientSet σ
  informers : Informers σ

/-- The type `validatingWebhookClient` (underlying type `webhookClientImpl`). -/
structure validatingWebhookClient (σ : Type) where
  clientSet : ClientSet σ
  informers : Informers σ

/-- The method `(*mutatingWebhookClient).update`; the receiver may be a nil pointer, which is
dereferenced only after the downcast succeeded. -/
def mutatingWebhookClient.update {σ : Type} (c : Option (mutatingWebhookClient σ))
    (e : webhookConfigElement) (w : σ) : Res Unit × σ :=
  match e.getMutatingWebhookConfig with
  | .error err => (.err err, w)
  | .ok cfg =>
    match c with
    | none => (.fault, w)
    | some c => andThen (c.clientSet.MutatingWebhookConfigurationsUpdate cfg w) fun _ w => (.ok (), w)

/-- The method `(*validatingWebhookClient).update`. -/
def validatingWebhookClient.update {σ : Type} (c : Option (validatingWebhookClient σ))
    (e : webhookConfigElement) (w : σ) : Res Unit × σ :=
  match e.getValidatingWebhookConfig with
  | .error err => (.err err, w)
  | .ok cfg =>
    match c with
    | none => (.fault, w)
    | some c =>
      andThen (c.clientSet.ValidatingWebhookConfigurationsUpdate cfg w) fun _ w => (.ok (), w)

/-- The type `delegatingWebhookClient`: two pointers, either of which may be nil. -/
structure delegatingWebhookClient (σ : Type) where
  mutatingWebhookClient : Option (WebhookCertManager.mutatingWebhookClient σ)
  validatingWebhookClient : Option (WebhookCertManager.validatingWebhookClient σ)

/-- The method `(*delegatingWebhookClient).update`. -/
def delegatingWebhookClient.update {σ : Type} (m : delegatingWebhookClient σ)
    (e : webhookConfigElement) (w : σ) : Res Unit × σ :=
  match e.getType with
  | .mutatingWebhookType => WebhookCertManager.mutatingWebhookClient.update m.mutatingWebhookClient e w
  | .validatingWebhookType =>
    WebhookCertManager.validatingWebhookClient.update m.validatingWebhookClient e w

/-- The constructor `newMutatingWebhookClient`. -/
def newMutatingWebhookClient {σ : Type} (clientset : ClientSet σ) (informers : Informers σ) :
    delegatingWebhookClient σ :=
  { mutatingWebhookClient := some { clientSet := clientset, informers := informers }
    validatingWebhookClient := none }

/-- The constructor `newValidatingWebhookClient`. -/
def newValidatingWebhookClient {σ : Type} (clientset : ClientSet σ) (informers : Informers σ) :
    delegatingWebhookClient σ :=
  { mutatingWebhookClient := none
    validatingWebhookClient := some { clientSet := clientset, informers := informers } }

/-! ## certhandler.go -/

/-- The variable `SecretCertInjectionAnnotationKeyPrefix`. -/
def SecretCertInjectionAnnotationKeyPrefix : String := "secret.certprovisioner.kubernetes.io/"

/-- The variable `CACertName`. -/
def CACertName : String := "ca-cert.pem"

/-- The variable `ServerKeyName`. -/
def ServerKeyName : String := "key.pem"

/-- The variable `ServerCertName`. -/
def ServerCertName : String := "cert.pem"

/-- Assignment `m[k] = v` on a Go map. -/
def mapSet {β : Type} (m : List (String × β)) (k : String) (v : β) : List (String × β) :=
  (k, v) :: m.filter fun p => p.1 != k

/-- The function `validCertInSecret`: the body is `return true`. -/
def validCertInSecret (_certs : Certs) : Bool := true

/-- The function `secretToCerts`. -/
def secretToCerts (secret : Secret) : Except Err Certs :=
  let checkList := [CACertName, ServerCertName, ServerKeyName]
  match checkList.find? fun key => (secret.Data.lookup key).isNone with
  | some key => .error (.requiredKeyMissing key)
  | none =>
    .ok { CACert := (secret.Data.lookup CACertName).getD []
          Cert := (secret.Data.lookup ServerCertName).getD []
          Key := (secret.Data.lookup ServerKeyName).getD [] }

/-- The function `certsToSecret`. -/
def certsToSecret (certs : Certs) (sec : NamespacedName) : Secret :=
  { TypeMeta := { APIVersion := "v1", Kind := "Secret" }
    ObjectMeta :=
      { Namespace := sec.Namespace, Name := sec.Name, ResourceVersion := "", Labels := none,
        Annotations := none }
    Data := [(CACertName, certs.CACert), (ServerKeyName, certs.Key), (ServerCertName, certs.Cert)] }

/-- The function `webhookClientConfigToCommonName`. In the URL branch the host is read from the
parse result before the error is looked at, so a failed parse (nil `*url.URL`) panics. -/
def webhookClientConfigToCommonName (lib : Lib) (config : WebhookClientConfig) : Res String :=
  match config.Service, config.URL with
  | some _, some _ => .err .serviceAndURL
  | none, none => .err .neitherServiceNorURL
  | some service, none => .ok (lib.ServiceToCommonName service.Namespace service.Name)
  | none, some url =>
    match lib.urlParse url with
    | .ok u => .ok u.Host
    | .error _ => .fault

/-- The type `SecretCertsReadWriterFactory`. -/
structure SecretCertsReadWriterFactory (σ : Type) where
  KubernetesClientSet : ClientSet σ
  KubernetesInformers : Informers σ
  GetCertProvisioner : String → σ → Res (CertProvisioner σ) × σ

/-- The type `secretCertsReadWriter`. `webhookMap` is a Go map to `*Webhook`: a missing key
reads as the nil pointer. -/
structure secretCertsReadWriter (σ : Type) where
  kubernetesClientSet : ClientSet σ
  kubernetesInformers : Informers σ
  webhookConfig : webhookConfigElement
  webhookMap : List (String × Webhook)
  webhookToSecrets : List (String × NamespacedName)
  getCertProvisioner : String → σ → Res (CertProvisioner σ) × σ

/-- The loop of `SecretCertsReadWriterFactory.New` over the annotations. -/
def collectWebhookToSecret (annotations : List (String × String)) :
    List (String × NamespacedName) :=
  annotations.foldl
    (fun webhookToSecret kv =>
      if HasPrefix kv.1 SecretCertInjectionAnnotationKeyPrefix then
        let webhookName := TrimPrefix kv.1 SecretCertInjectionAnnotationKeyPrefix
        mapSet webhookToSecret webhookName (NewNamespacedNameFromString kv.2)
      else webhookToSecret)
    []

/-- The method `(*SecretCertsReadWriterFactory).New`, before the conversion of the result to
the interface `CertsHandler`. The field `webhookMap` is not set and stays the nil map. -/
def SecretCertsReadWriterFactory.New {σ : Type} (s : SecretCertsReadWriterFactory σ)
    (webhookConfiguration : RuntimeObject) : Res (Option (secretCertsReadWriter σ)) :=
  let switched : Except Err webhookConfigElement :=
    match webhookConfiguration with
    | .Mutating typed => .ok (newMutatingWebhookElement typed)
    | .Validating typed => .ok (newValidatingWebhookElement typed)
    | .Other typeName => .error (.unsupportedType typeName)
  match switched with
  | .error e => .err e
  | .ok element =>
    match metaAccessor webhookConfiguration with
    | .error e => .err e
    | .ok accessor =>
      match accessor.Annotations with
      | none => .ok none
      | some annotations =>
        .ok (some
          { kubernetesClientSet := s.KubernetesClientSet
            kubernetesInformers := s.KubernetesInformers
            webhookConfig := element
            webhookMap := []
            webhookToSecrets := collectWebhookToSecret annotations
            getCertProvisioner := s.GetCertProvisioner })

namespace secretCertsReadWriter

/-- The method `(*secretCertsReadWriter).Skip`. -/
def Skip {σ : Type} (s : secretCertsReadWriter σ) (webhookName : String) : Bool :=
  match s.webhookToSecrets.lookup webhookName with
  | some _ => false
  | none => true

/-- The method `(*secretCertsReadWriter).Write`. -/
def Write {σ : Type} (lib : Lib) (s : secretCertsReadWriter σ) (webhookName : String) (w : σ) :
    Res Certs × σ :=
  match s.webhookToSecrets.lookup webhookName with
  | none => (.err (.secretNameNotFound webhookName), w)
  | some sec =>
    match s.webhookMap.lookup webhookName with
    | none => (.fault, w)
    | some webhook =>
      match webhookClientConfigToCommonName lib webhook.ClientConfig with
      | .fault => (.fault, w)
      | .err e => (.err e, w)
      | .ok commonName =>
        andThen (s.getCertProvisioner commonName w) fun cp w =>
          match s.kubernetesInformers.SecretsGet sec.Namespace sec.Name w with
          | (.fault, w) => (.fault, w)
          | (.err e, w) =>
            if IsNotFound e then
              andThen (cp.ProvisionServingCert w) fun certs w =>
                let secret := certsToSecret certs sec
                andThen (s.kubernetesClientSet.SecretsCreate sec.Namespace secret w) fun _ w =>
                  (.ok certs, w)
            else (.err e, w)
          | (.ok secret, w) =>
            match secretToCerts secret with
            | .error e => (.err e, w)
            | .ok certs =>
              if !validCertInSecret certs then
                andThen (cp.ProvisionServingCert w) fun certs w =>
                  let secret := certsToSecret certs sec
                  andThen (s.kubernetesClientSet.SecretsUpdate sec.Namespace secret w) fun _ w =>
                    (.ok certs, w)
              else (.ok certs, w)

/-- The method `(*secretCertsReadWriter).Read`. -/
def Read {σ : Type} (s : secretCertsReadWriter σ) (webhookName : String) (w : σ) :
    Res Certs × σ :=
  match s.webhookToSecrets.lookup webhookName with
  | none => (.err (.secretNameNotFound webhookName), w)
  | some sec =>
    andThen (s.kubernetesInformers.SecretsGet sec.Namespace sec.Name w) fun secret w =>
      match secretToCerts secret with
      | .error e => (.err e, w)
      | .ok certs => (.ok certs, w)

/-- Use of a `*secretCertsReadWriter` as a `CertsHandler`. -/
def toCertsHandler {σ : Type} (lib : Lib) (s : secretCertsReadWriter σ) : CertsHandler σ :=
  { Skip := fun webhookName w => (some (s.Skip webhookName), w)
    Read := s.Read
    Write := s.Write lib }

end secretCertsReadWriter

/-- Use of a `*SecretCertsReadWriterFactory` as a `CertsHandlerFactory`. -/
def SecretCertsReadWriterFactory.toCertsHandlerFactory {σ : Type} (lib : Lib)
    (s : SecretCertsReadWriterFactory σ) : CertsHandlerFactory σ :=
  { New := fun webhookConfiguration w =>
      match s.New webhookConfiguration with
      | .ok (some ch) => (.ok (some (ch.toCertsHandler lib)), w)
      | .ok none => (.ok none, w)
      | .err e => (.err e, w)
      | .fault => (.fault, w) }

/-! ## controller.go -/

/-- A call that `Sync` or `syncSecretWithWebhook` issues on one of its two interfaces: the three
methods of the `CertsHandler`, and `update` of the `webhookClient`. -/
inductive Call where
  | Skip (webhookName : String)
  | Read (webhookName : String)
  | Write (webhookName : String)
  | update (e : webhookConfigElement)
  deriving DecidableEq, Repr

/-- State of a run of `Sync`: the outside world and the calls issued so far, oldest first. -/
structure Exec (σ : Type) where
  world : σ
  calls : List Call
  deriving DecidableEq, Repr

/-- Issue the call `c`, carried out by `f` on the outside world, and record it. -/
def Exec.call {σ α : Type} (x : Exec σ) (c : Call) (f : σ → α × σ) : α × Exec σ :=
  ((f x.world).1, { world := (f x.world).2, calls := x.calls ++ [c] })

/-- The type `GenericWebhookConfigurationController`. -/
structure GenericWebhookConfigurationController (σ : Type) where
  KubernetesClientSet : ClientSet σ
  KubernetesInformers : Informers σ
  CertsHandlerFactory : CertsHandlerFactory σ
  GetCertProvisioner : String → σ → Res (CertProvisioner σ) × σ

/-- The method `(*GenericWebhookConfigurationController).newWebhookClient`. -/
def GenericWebhookConfigurationController.newWebhookClient {σ : Type}
    (bc : GenericWebhookConfigurationController σ) (webhookConfiguration : RuntimeObject) :
    Except Err (delegatingWebhookClient σ) :=
  match webhookConfiguration with
  | .Mutating _ => .ok (newMutatingWebhookClient bc.KubernetesClientSet bc.KubernetesInformers)
  | .Validating _ => .ok (newValidatingWebhookClient bc.KubernetesClientSet bc.KubernetesInformers)
  | .Other typeName => .error (.unsupportedType typeName)

/-- Lines 85 to 104 of `syncSecretWithWebhook`: read the certificates, write them when the read
fails with not-found, write them again when they are not valid. -/
def obtainCerts {σ : Type} (ch : CertsHandler σ) (webhookName : String) (x : Exec σ) :
    Res Certs × Exec σ :=
  let firstTry : Res Certs × Exec σ :=
    match x.call (.Read webhookName) (ch.Read webhookName) with
    | (.err e, x) =>
      if IsNotFound e then x.call (.Write webhookName) (ch.Write webhookName) else (.err e, x)
    | (r, x) => (r, x)
  andThen firstTry fun certs x =>
    if !validCertInSecret certs then x.call (.Write webhookName) (ch.Write webhookName)
    else (.ok certs, x)

/-- Lines 106 to 111 of `syncSecretWithWebhook`: append the CA certificate to the bundle of the
webhook unless the bundle contains it. -/
def mergeCABundle (webhook : Webhook) (certs : Certs) : Webhook :=
  let caBundle := webhook.ClientConfig.CABundle
  let caCert := certs.CACert
  if !bytesContains caBundle caCert then
    { webhook with ClientConfig := { webhook.ClientConfig with CABundle := caBundle ++ caCert } }
  else webhook

/-- The function `syncSecretWithWebhook`. It returns the error, the webhook as the call leaves
it behind the pointer, and the state. A nil `CertsHandler` panics at the first method call. -/
def syncSecretWithWebhook {σ : Type} (webhook : Webhook) (ch : Option (CertsHandler σ))
    (x : Exec σ) : Res Unit × Webhook × Exec σ :=
  let webhookName := webhook.Name
  match ch with
  | none => (.fault, webhook, x)
  | some ch =>
    match x.call (.Skip webhookName) (ch.Skip webhookName) with
    | (none, x) => (.fault, webhook, x)
    | (some true, x) => (.ok (), webhook, x)
    | (some false, x) =>
      match obtainCerts ch webhookName x with
      | (.fault, x) => (.fault, webhook, x)
      | (.err e, x) => (.err e, webhook, x)
      | (.ok certs, x) => (.ok (), mergeCABundle webhook certs, x)

/-- The loop `for i := range webhooks { syncSecretWithWebhook(&webhooks[i], certsHander) }` of
`Sync`. The value returned by `syncSecretWithWebhook` is not assigned; only a panic ends the
loop early, and the result is then `none`. -/
def syncWebhooks {σ : Type} (certsHander : Option (CertsHandler σ)) :
    List Webhook → Exec σ → Option (List Webhook) × Exec σ
  | [], x => (some [], x)
  | webhook :: rest, x =>
    match syncSecretWithWebhook webhook certsHander x with
    | (.fault, _, x) => (none, x)
    | (_, webhook, x) =>
      match syncWebhooks certsHander rest x with
      | (none, x) => (none, x)
      | (some rest, x) => (some (webhook :: rest), x)

/-- Lines 64 to 68 of `Sync`: clone the element and run the loop over the webhooks of the
clone. The result is the clone after the loop, or `none` when the loop panicked. -/
def reconcile {σ : Type} (certsHander : Option (CertsHandler σ))
    (webhookConfig : webhookConfigElement) (x : Exec σ) :
    Option webhookConfigElement × Exec σ :=
  let cloned := webhookConfig.deepCopy
  let webhooks := cloned.getWebhooks
  match syncWebhooks certsHander webhooks x with
  | (none, x) => (none, x)
  | (some webhooks, x) => (some (cloned.setWebhooks webhooks), x)

/-- The method `(*GenericWebhookConfigurationController).Sync`. -/
def GenericWebhookConfigurationController.Sync {σ : Type}
    (bc : GenericWebhookConfigurationController σ) (webhookConfiguration : RuntimeObject)
    (x : Exec σ) : Res Unit × Exec σ :=
  match bc.CertsHandlerFactory.New webhookConfiguration x.world with
  | (.fault, w) => (.fault, { x with world := w })
  | (.err e, w) => (.err e, { x with world := w })
  | (.ok certsHander, w) =>
    let x := { x with world := w }
    match bc.newWebhookClient webhookConfiguration with
    | .error e => (.err e, x)
    | .ok webhookClient =>
      match newWebhookElement webhookConfiguration with
      | .error e => (.err e, x)
      | .ok webhookConfig =>
        match reconcile certsHander webhookConfig x with
        | (none, x) => (.fault, x)
        | (some cloned, x) =>
          if webhookConfig.deepEqual cloned then (.ok (), x)
          else x.call (.update cloned) (webhookClient.update cloned)

/-! ## A cluster

The secrets of a cluster in two places, keyed by namespace and name: the store, which the
clientset writes, and the cache of the informer, which the lister reads. A watch event carries
a write from the store to the cache some time later; no call of the package does. The cluster
also keeps the record of the requests it served. -/

/-- A request served by the cluster. -/
inductive Action where
  | getSecret (ns name : String)
  | createSecret (secret : Secret)
  | updateSecret (secret : Secret)
  | updateMutating (cfg : MutatingWebhookConfiguration)
  | updateValidating (cfg : ValidatingWebhookConfiguration)
  deriving DecidableEq, Repr

/-- The secrets in the store of a cluster, the requests it has served, oldest first, and the
secrets in the cache of the informer. A cluster written without its cache is one whose cache
is in step with the store. -/
structure Cluster where
  secrets : List Secret
  actions : List Action
  cache : List Secret := secrets
  deriving DecidableEq, Repr

namespace Cluster

/-- Whether `secret` is stored under namespace `ns` and name `name`. -/
def isAt (ns name : String) (secret : Secret) : Bool :=
  secret.ObjectMeta.Namespace == ns && secret.ObjectMeta.Name == name

/-- The secret stored under a namespace and a name. -/
def findSecret (c : Cluster) (ns name : String) : Option Secret :=
  c.secrets.find? (isAt ns name)

/-- The secret that the cache of the informer holds under a namespace and a name. -/
def findCached (c : Cluster) (ns name : String) : Option Secret :=
  c.cache.find? (isAt ns name)

/-- Append a request to the record. -/
def record (c : Cluster) (a : Action) : Cluster :=
  { c with actions := c.actions ++ [a] }

/-- The lister of secrets: the secret in the cache of the informer, or a not-found status
error. -/
def informers : Informers Cluster :=
  { SecretsGet := fun ns name c =>
      match c.findCached ns name with
      | some secret => (.ok secret, c.record (.getSecret ns name))
      | none => (.err (.status .NotFound), c.record (.getSecret ns name)) }

/-- The clientset: create fails on a stored secret of that identity, update fails without one;
both write the store and leave the cache of the informer as it is. Updates of webhook
configurations are recorded and succeed. The namespace argument of the secret calls is the
namespace of the secret wherever the package calls them, so the secret is filed under its own
namespace and name. -/
def clientSet : ClientSet Cluster :=
  { SecretsCreate := fun _ secret c =>
      match c.findSecret secret.ObjectMeta.Namespace secret.ObjectMeta.Name with
      | some _ => (.err (.status .AlreadyExists), c.record (.createSecret secret))
      | none =>
        (.ok secret,
          { secrets := c.secrets ++ [secret]
            actions := c.actions ++ [.createSecret secret]
            cache := c.cache })
    SecretsUpdate := fun _ secret c =>
      match c.findSecret secret.ObjectMeta.Namespace secret.ObjectMeta.Name with
      | none => (.err (.status .NotFound), c.record (.updateSecret secret))
      | some _ =>
        (.ok secret,
          { secrets :=
              c.secrets.map fun old =>
                if isAt secret.ObjectMeta.Namespace secret.ObjectMeta.Name old then secret else old
            actions := c.actions ++ [.updateSecret secret]
            cache := c.cache })
    MutatingWebhookConfigurationsUpdate := fun cfg c => (.ok cfg, c.record (.updateMutating cfg))
    ValidatingWebhookConfigurationsUpdate := fun cfg c =>
      (.ok cfg, c.record (.updateValidating cfg)) }

/-- A provisioner that hands out the given certificates for every common name and leaves the
cluster alone. -/
def fixedProvisioner (certs : Certs) (_commonName : String) (c : Cluster) :
    Res (CertProvisioner Cluster) × Cluster :=
  (.ok { ProvisionServingCert := fun c => (.ok certs, c) }, c)

/-- The controller as `ProvideController` wires it: the secret-backed factory over the same
clientset and informers. -/
def controller (lib : Lib) (certs : Certs) : GenericWebhookConfigurationController Cluster :=
  { KubernetesClientSet := clientSet
    KubernetesInformers := informers
    CertsHandlerFactory :=
      SecretCertsReadWriterFactory.toCertsHandlerFactory lib
        { KubernetesClientSet := clientSet
          KubernetesInformers := informers
          GetCertProvisioner := fixedProvisioner certs }
    GetCertProvisioner := fixedProvisioner certs }

end Cluster

/-- A stand-in for the two library functions: a URL parses when it starts with `https://`, its
host being the remainder, and the common name of a service is `name.namespace.svc`. -/
def sampleLib : Lib :=
  { urlParse := fun raw =>
      if HasPrefix raw "https://" then .ok { Host := TrimPrefix raw "https://" }
      else .error (.other "parse error")
    ServiceToCommonName := fun serviceNamespace serviceName =>
      serviceName ++ "." ++ serviceNamespace ++ ".svc" }

/-- The handler that the factory of `Cluster.controller` builds for an object (`none` for the
nil handler and when the factory fails). -/
def Cluster.handlerOf (lib : Lib) (certs : Certs) (webhookConfiguration : RuntimeObject)
    (c : Cluster) : Option (CertsHandler Cluster) :=
  match ((Cluster.controller lib certs).CertsHandlerFactory.New webhookConfiguration c).1 with
  | .ok certsHander => certsHander
  | _ => none

/-- The handler reports `Skip(n) = true` in every state of the world (a nil handler has no
such report to make). -/
def skipsAlways {σ : Type} (ch : Option (CertsHandler σ)) (n : String) : Prop :=
  ∀ h, ch = some h → ∀ w, (h.Skip n w).1 = some true

/-- Whether a call returned the nil value together with a nil error. -/
def isNilWithoutError {α : Type} : Res (Option α) → Bool
  | .ok none => true
  | _ => false

/-- Whether a call is `update` on the `webhookClient`. -/
def Call.isUpdate : Call → Bool
  | .update _ => true
  | _ => false

/-- What the store answers to the update of the configuration that an element wraps. -/
def ClientSet.updateElement {σ : Type} (clientset : ClientSet σ) (e : webhookConfigElement)
    (w : σ) : Res Unit × σ :=
  match e with
  | .mutatingWebhookElement cfg =>
    andThen (clientset.MutatingWebhookConfigurationsUpdate cfg w) fun _ w => (.ok (), w)
  | .validatingWebhookElement cfg =>
    andThen (clientset.ValidatingWebhookConfigurationsUpdate cfg w) fun _ w => (.ok (), w)

/-- The webhook `entry` is settled in a list of secrets: when its name is bound to a secret
identity, the list holds a secret there with all three keys, and the bundle of the webhook
contains the CA certificate of that secret. -/
def settled (secrets : List Secret) (webhookToSecrets : List (String × NamespacedName))
    (entry : Webhook) : Prop :=
  ∀ sec, webhookToSecrets.lookup entry.Name = some sec →
    ∃ secret certs, secrets.find? (Cluster.isAt sec.Namespace sec.Name) = some secret ∧
      secretToCerts secret = .ok certs ∧ certs.CACert <:+: entry.ClientConfig.CABundle

/-- The webhook `after` is the webhook `before` except for its CA bundle, and that bundle starts
with the bundle of `before`. -/
def onlyBundleExtended (before after : Webhook) : Prop :=
  { after with
      ClientConfig := { after.ClientConfig with CABundle := before.ClientConfig.CABundle } } =
    before ∧
  before.ClientConfig.CABundle <+: after.ClientConfig.CABundle

/-- The provisioner of the handler leaves the cluster alone: neither getting a provisioner for a
common name nor provisioning a certificate changes the state of the cluster. -/
def provisionerLeavesCluster (s : secretCertsReadWriter Cluster) : Prop :=
  ∀ commonName c,
    (s.getCertProvisioner commonName c).2 = c ∧
    ∀ cp, (s.getCertProvisioner commonName c).1 = .ok cp →
      ∀ c2, (cp.ProvisionServingCert c2).2 = c2

/-! ## Sample objects -/

namespace Sample

/-- A webhook that points at the service `default/svc`. -/
def hook (name : String) (caBundle : Bytes) : Webhook :=
  { Name := name
    ClientConfig :=
      { URL := none
        Service := some { Namespace := "default", Name := "svc", Path := none }
        CABundle := caBundle }
    Rules := ["*"]
    FailurePolicy := none
    NamespaceSelector := none }

/-- Object metadata with the given annotations. -/
def objectMeta (annotations : Option (List (String × String))) : ObjectMeta :=
  { Name := "webhooks", Namespace := "", ResourceVersion := "1", Labels := none,
    Annotations := annotations }

/-- A mutating configuration. -/
def mutating (annotations : Option (List (String × String))) (webhooks : List Webhook) :
    MutatingWebhookConfiguration :=
  { TypeMeta := { Kind := "MutatingWebhookConfiguration", APIVersion := "v1beta1" }
    ObjectMeta := objectMeta annotations
    Webhooks := webhooks }

/-- A validating configuration. -/
def validating (annotations : Option (List (String × String))) (webhooks : List Webhook) :
    ValidatingWebhookConfiguration :=
  { TypeMeta := { Kind := "ValidatingWebhookConfiguration", APIVersion := "v1beta1" }
    ObjectMeta := objectMeta annotations
    Webhooks := webhooks }

/-- A secret with the given data. -/
def secret (ns name : String) (data : List (String × Bytes)) : Secret :=
  { TypeMeta := { Kind := "Secret", APIVersion := "v1" }
    ObjectMeta :=
      { Name := name, Namespace := ns, ResourceVersion := "1", Labels := none,
        Annotations := none }
    Data := data }

/-- The material a provisioner hands out. -/
def fresh : Certs := { Key := [7], Cert := [8], CACert := [9, 9] }

/-- The material that is already stored. -/
def stored : Certs := { Key := [1], Cert := [2], CACert := [3, 3] }

/-- The start of a run on a cluster with the given secrets, in the store and in the cache. -/
def start (secrets : List Secret) : Exec Cluster :=
  { world := { secrets := secrets, actions := [] }, calls := [] }

/-- The annotation that sends `hook-a` to the secret `ns1/sec-a`. -/
def annotationA : String × String := ("secret.certprovisioner.kubernetes.io/hook-a", "ns1/sec-a")

/-- The annotation that sends `hook-b` to the secret `ns1/sec-b`. -/
def annotationB : String × String := ("secret.certprovisioner.kubernetes.io/hook-b", "ns1/sec-b")

/-- A stored secret for `hook-a` that lacks `cert.pem` and `key.pem`. -/
def brokenSecretA : Secret := secret "ns1" "sec-a" [("ca-cert.pem", [3, 3])]

/-- A stored secret for `hook-b` with all three keys. -/
def goodSecretB : Secret :=
  secret "ns1" "sec-b" [("ca-cert.pem", [3, 3]), ("cert.pem", [2]), ("key.pem", [1])]

/-- A stored secret for `hook-a` with all three keys. -/
def goodSecretA : Secret :=
  secret "ns1" "sec-a" [("ca-cert.pem", [3, 3]), ("cert.pem", [2]), ("key.pem", [1])]

/-- Two annotated webhooks with empty bundles. -/
def twoHooks : MutatingWebhookConfiguration :=
  mutating (some [annotationA, annotationB]) [hook "hook-a" [], hook "hook-b" []]

/-- One annotated webhook `hook-a` with an empty bundle. -/
def firstSync : MutatingWebhookConfiguration :=
  mutating (some [annotationA]) [hook "hook-a" []]

/-- A mutating configuration without annotations and with one webhook. -/
def plainMutating : MutatingWebhookConfiguration := mutating none [hook "hook-a" []]

/-- A validating configuration without annotations whose one webhook has a bundle. -/
def plainValidating : ValidatingWebhookConfiguration := validating none [hook "hook-a" [3, 3]]

/-- A `secretCertsReadWriter` over the cluster that knows `hook-a`, in both of its maps. -/
def readWriterA : secretCertsReadWriter Cluster :=
  { kubernetesClientSet := Cluster.clientSet
    kubernetesInformers := Cluster.informers
    webhookConfig := newMutatingWebhookElement firstSync
    webhookMap := [("hook-a", hook "hook-a" [])]
    webhookToSecrets := [("hook-a", { Namespace := "ns1", Name := "sec-a" })]
    getCertProvisioner := Cluster.fixedProvisioner fresh }

/-- One annotated webhook `hook-a` and one webhook `hook-c` without annotation. -/
def mixed : MutatingWebhookConfiguration :=
  mutating (some [annotationA]) [hook "hook-a" [], hook "hook-c" [5]]

/-- The secret-backed factory over the cluster. -/
def factory : SecretCertsReadWriterFactory Cluster :=
  { KubernetesClientSet := Cluster.clientSet
    KubernetesInformers := Cluster.informers
    GetCertProvisioner := Cluster.fixedProvisioner fresh }

/-- The configuration `twoHooks` after the CA of `goodSecretB` went into the bundle of
`hook-b`. -/
def twoHooksSynced : MutatingWebhookConfiguration :=
  mutating (some [annotationA, annotationB]) [hook "hook-a" [], hook "hook-b" [3, 3]]

/-- A cluster that holds the given secrets, in the store and in the cache, and has served the
given requests. -/
def served (secrets : List Secret) (actions : List Action) (calls : List Call) : Exec Cluster :=
  { world := { secrets := secrets, actions := actions }, calls := calls }

/-- A client configuration with only a URL. -/
def urlOnly (url : String) : WebhookClientConfig :=
  { URL := some url, Service := none, CABundle := [] }

/-- A client configuration with only the service `default/svc`. -/
def serviceOnly : WebhookClientConfig :=
  { URL := none, Service := some { Namespace := "default", Name := "svc", Path := none },
    CABundle := [] }

/-- A client configuration with both a service and a URL. -/
def serviceAndURL : WebhookClientConfig :=
  { URL := some "https://example.com"
    Service := some { Namespace := "default", Name := "svc", Path := none }
    CABundle := [] }

/-- A client configuration with neither a service nor a URL. -/
def neither : WebhookClientConfig := { URL := none, Service := none, CABundle := [] }

/-- A secret with all three keys, the CA certificate being empty. -/
def emptyCASecret : Secret :=
  secret "ns1" "sec-a" [("ca-cert.pem", []), ("cert.pem", [2]), ("key.pem", [1])]

/-- The secret that `Write` creates for `hook-a` from the provisioned material. -/
def createdA : Secret := certsToSecret fresh { Namespace := "ns1", Name := "sec-a" }

/-- The cluster after `Write` for `hook-a` on a cluster without secrets: the store holds the
created secret and the cache of the informer does not. -/
def afterCreate : Cluster :=
  { secrets := [createdA]
    actions := [.getSecret "ns1" "sec-a", .createSecret createdA]
    cache := [] }

/-- The cluster `afterCreate` once the cache of the informer has received the created secret. -/
def afterWatch : Cluster :=
  { secrets := [createdA]
    actions := [.getSecret "ns1" "sec-a", .createSecret createdA]
    cache := [createdA] }

end Sample

/-! ## Auxiliary facts -/

/-- The test of `bytes.Contains` is the infix relation on lists. -/
theorem bytesContains_iff (b sub : Bytes) : bytesContains b sub = true ↔ sub <:+: b := by
  induction b with
  | nil =>
    cases sub <;> simp [bytesContains]
  | cons x xs ih =>
    rw [bytesContains, Bool.or_eq_true, ih, List.infix_cons_iff, List.isPrefixOf_iff_prefix]

/-- The bundle that `mergeCABundle` leaves behind. -/
theorem mergeCABundle_bundle (webhook : Webhook) (certs : Certs) :
    (mergeCABundle webhook certs).ClientConfig.CABundle =
      if certs.CACert <:+: webhook.ClientConfig.CABundle then webhook.ClientConfig.CABundle
      else webhook.ClientConfig.CABundle ++ certs.CACert := by
  unfold mergeCABundle
  by_cases h : certs.CACert <:+: webhook.ClientConfig.CABundle
  · simp [h, (bytesContains_iff _ _).2 h]
  · have : bytesContains webhook.ClientConfig.CABundle certs.CACert = false := by
      rw [← Bool.not_eq_true, bytesContains_iff]; exact h
    simp [h, this]

/-- The calls that `obtainCerts` issues are `Read` and `Write` for the name it is given. -/
theorem obtainCerts_calls {σ : Type} (ch : CertsHandler σ) (n : String) (x : Exec σ) :
    ∃ cs, (obtainCerts ch n x).2.calls = x.calls ++ cs ∧
      ∀ c ∈ cs, c = .Read n ∨ c = .Write n := by
  unfold obtainCerts
  simp only [Exec.call, validCertInSecret, Bool.not_true, Bool.false_eq_true, if_false]
  rcases hr : ch.Read n x.world with ⟨r, w⟩
  rcases r with certs | e | _
  · exact ⟨[.Read n], by simp [andThen], by simp⟩
  · by_cases hnf : IsNotFound e = true
    · rcases hw : ch.Write n w with ⟨r2, w2⟩
      rcases r2 with certs | e2 | _ <;>
        exact ⟨[.Read n, .Write n], by simp [andThen, hnf, hw], by simp⟩
    · exact ⟨[.Read n], by simp [andThen, hnf], by simp⟩
  · exact ⟨[.Read n], by simp [andThen], by simp⟩

/-- The calls that one step issues name its webhook; a `Read` or a `Write` among them means
that the handler did not report the name as skipped. -/
theorem syncSecretWithWebhook_calls {σ : Type} (webhook : Webhook) (ch : Option (CertsHandler σ))
    (x : Exec σ) :
    ∃ cs, (syncSecretWithWebhook webhook ch x).2.2.calls = x.calls ++ cs ∧
      ∀ c ∈ cs, c = .Skip webhook.Name ∨
        ((c = .Read webhook.Name ∨ c = .Write webhook.Name) ∧ ¬ skipsAlways ch webhook.Name) := by
  cases ch with
  | none => exact ⟨[], by simp [syncSecretWithWebhook], by simp⟩
  | some h =>
    simp only [syncSecretWithWebhook, Exec.call]
    rcases hs : h.Skip webhook.Name x.world with ⟨b, w⟩
    rcases b with _ | b
    · exact ⟨[.Skip webhook.Name], by simp, by simp⟩
    · cases b
      · obtain ⟨cs, hcs, hmem⟩ := obtainCerts_calls h webhook.Name
          { world := w, calls := x.calls ++ [.Skip webhook.Name] }
        refine ⟨.Skip webhook.Name :: cs, ?_, ?_⟩
        · rcases ho : obtainCerts h webhook.Name
            { world := w, calls := x.calls ++ [.Skip webhook.Name] } with ⟨r, x2⟩
          rw [ho] at hcs
          rcases r with certs | e | _ <;> simpa [ho] using hcs
        · intro c hc
          rcases List.mem_cons.1 hc with rfl | hc
          · exact Or.inl rfl
          · refine Or.inr ⟨hmem c hc, fun hskip => ?_⟩
            have := hskip h rfl x.world
            rw [hs] at this
            simp at this
      · exact ⟨[.Skip webhook.Name], by simp, by simp⟩

/-- A step on a webhook whose name the handler always skips leaves the webhook as it is. -/
theorem syncSecretWithWebhook_skipped {σ : Type} (webhook : Webhook)
    (ch : Option (CertsHandler σ)) (x : Exec σ) (hskip : skipsAlways ch webhook.Name) :
    (syncSecretWithWebhook webhook ch x).2.1 = webhook := by
  cases ch with
  | none => simp [syncSecretWithWebhook]
  | some h =>
    have h1 := hskip h rfl x.world
    rcases hs : h.Skip webhook.Name x.world with ⟨b, w⟩
    rw [hs] at h1
    simp only at h1
    subst h1
    simp [syncSecretWithWebhook, Exec.call, hs]

/-- The calls of the loop are calls of its steps. -/
theorem syncWebhooks_calls {σ : Type} (ch : Option (CertsHandler σ)) (ws : List Webhook)
    (x : Exec σ) :
    ∃ cs, (syncWebhooks ch ws x).2.calls = x.calls ++ cs ∧
      ∀ c ∈ cs, ∃ w ∈ ws, c = .Skip w.Name ∨
        ((c = .Read w.Name ∨ c = .Write w.Name) ∧ ¬ skipsAlways ch w.Name) := by
  induction ws generalizing x with
  | nil => exact ⟨[], by simp [syncWebhooks], by simp⟩
  | cons w rest ih =>
    obtain ⟨cs1, h1, m1⟩ := syncSecretWithWebhook_calls w ch x
    rcases hstep : syncSecretWithWebhook w ch x with ⟨r, w', x1⟩
    rw [hstep] at h1
    simp only at h1
    obtain ⟨cs2, h2, m2⟩ := ih x1
    have hhead : ∀ c ∈ cs1, ∃ v ∈ w :: rest, c = .Skip v.Name ∨
        ((c = .Read v.Name ∨ c = .Write v.Name) ∧ ¬ skipsAlways ch v.Name) :=
      fun c hc => ⟨w, List.mem_cons_self _ _, m1 c hc⟩
    have htail : ∀ c ∈ cs2, ∃ v ∈ w :: rest, c = .Skip v.Name ∨
        ((c = .Read v.Name ∨ c = .Write v.Name) ∧ ¬ skipsAlways ch v.Name) := by
      intro c hc
      obtain ⟨v, hv, hc⟩ := m2 c hc
      exact ⟨v, List.mem_cons_of_mem _ hv, hc⟩
    rcases r with u | e | _
    · refine ⟨cs1 ++ cs2, ?_, ?_⟩
      · rcases hloop : syncWebhooks ch rest x1 with ⟨o, x2⟩
        rw [hloop] at h2
        simp only at h2
        cases o <;> simp [syncWebhooks, hstep, hloop, h2, h1]
      · intro c hc
        rcases List.mem_append.1 hc with hc | hc
        · exact hhead c hc
        · exact htail c hc
    · refine ⟨cs1 ++ cs2, ?_, ?_⟩
      · rcases hloop : syncWebhooks ch rest x1 with ⟨o, x2⟩
        rw [hloop] at h2
        simp only at h2
        cases o <;> simp [syncWebhooks, hstep, hloop, h2, h1]
      · intro c hc
        rcases List.mem_append.1 hc with hc | hc
        · exact hhead c hc
        · exact htail c hc
    · exact ⟨cs1, by simp [syncWebhooks, hstep, h1], hhead⟩

/-- The loop keeps the number of webhooks and leaves every skipped webhook in place. -/
theorem syncWebhooks_result {σ : Type} (ch : Option (CertsHandler σ)) (ws ws' : List Webhook)
    (x : Exec σ) (hres : (syncWebhooks ch ws x).1 = some ws') :
    ws'.length = ws.length ∧
      ∀ (i : Nat) (e : Webhook), ws[i]? = some e → skipsAlways ch e.Name → ws'[i]? = some e := by
  induction ws generalizing x ws' with
  | nil =>
    simp [syncWebhooks] at hres
    subst hres
    simp
  | cons w rest ih =>
    have hsk := syncSecretWithWebhook_skipped w ch x
    rcases hstep : syncSecretWithWebhook w ch x with ⟨r, w', x1⟩
    rw [hstep] at hsk
    simp only at hsk
    rcases hloop : syncWebhooks ch rest x1 with ⟨o, x2⟩
    have ih' := ih (x := x1)
    rw [hloop] at ih'
    have key : ∀ rest', o = some rest' → ws' = w' :: rest' →
        ws'.length = (w :: rest).length ∧
          ∀ (i : Nat) (e : Webhook), (w :: rest)[i]? = some e → skipsAlways ch e.Name → ws'[i]? = some e := by
      intro rest' ho hws
      subst ho hws
      obtain ⟨hl, hi⟩ := ih' rest' rfl
      refine ⟨by simp [hl], ?_⟩
      intro i e hie hskip
      cases i with
      | zero =>
        simp at hie
        subst hie
        simp [hsk hskip]
      | succ i =>
        simp at hie
        simpa using hi i e hie hskip
    rcases r with u | e | _
    · cases o with
      | none => simp [syncWebhooks, hstep, hloop] at hres
      | some rest' =>
        simp [syncWebhooks, hstep, hloop] at hres
        exact key rest' rfl hres.symm
    · cases o with
      | none => simp [syncWebhooks, hstep, hloop] at hres
      | some rest' =>
        simp [syncWebhooks, hstep, hloop] at hres
        exact key rest' rfl hres.symm
    · simp [syncWebhooks, hstep] at hres

/-- A key has the given start and trims to `name` exactly when it is the start followed by
`name`. -/
theorem hasPrefix_trimPrefix_iff (k p name : String) :
    (HasPrefix k p = true ∧ TrimPrefix k p = name) ↔ k = p ++ name := by
  constructor
  · rintro ⟨hp, ht⟩
    have hp' : p.data <+: k.data := List.isPrefixOf_iff_prefix.1 hp
    obtain ⟨t, ht'⟩ := hp'
    simp only [TrimPrefix, hp, if_true] at ht
    apply String.ext
    rw [String.data_append, ← ht, ← ht']
    simp
  · rintro rfl
    have hp : HasPrefix (p ++ name) p = true := by
      simp [HasPrefix, String.data_append]
    refine ⟨hp, ?_⟩
    simp only [TrimPrefix, hp, if_true]
    apply String.ext
    simp [String.data_append]

/-- Removing the bindings of another key does not change a lookup. -/
theorem lookup_filter_ne {β : Type} (m : List (String × β)) (k name : String) (h : name ≠ k) :
    (m.filter fun p => p.1 != k).lookup name = m.lookup name := by
  induction m with
  | nil => rfl
  | cons q qs ih =>
    rcases q with ⟨a, b⟩
    by_cases ha : a = k
    · subst ha
      have hb : (name == a) = false := by simpa using h
      have hf : ((a, b) :: qs).filter (fun p => p.1 != a) = qs.filter (fun p => p.1 != a) := by
        simp [List.filter_cons]
      rw [hf, ih, List.lookup_cons, hb]
    · have hf : ((a, b) :: qs).filter (fun p => p.1 != k) =
          (a, b) :: qs.filter (fun p => p.1 != k) := by
        simp [List.filter_cons, ha]
      rw [hf, List.lookup_cons, List.lookup_cons, ih]

/-- Lookup after an assignment on a map. -/
theorem lookup_mapSet {β : Type} (m : List (String × β)) (k name : String) (v : β) :
    (mapSet m k v).lookup name = if name = k then some v else m.lookup name := by
  unfold mapSet
  by_cases h : name = k
  · subst h
    simp [List.lookup]
  · have hb : (name == k) = false := by simpa using h
    rw [if_neg h, List.lookup_cons, hb]
    exact lookup_filter_ne m k name h

/-- A name is bound after the loop over the annotations exactly when it was bound before or
some annotation key is the fixed start followed by the name. -/
theorem lookup_foldl_collect (annotations : List (String × String))
    (acc : List (String × NamespacedName)) (name : String) :
    ((annotations.foldl
        (fun webhookToSecret kv =>
          if HasPrefix kv.1 SecretCertInjectionAnnotationKeyPrefix then
            mapSet webhookToSecret (TrimPrefix kv.1 SecretCertInjectionAnnotationKeyPrefix)
              (NewNamespacedNameFromString kv.2)
          else webhookToSecret) acc).lookup name).isSome = true ↔
      ((acc.lookup name).isSome = true ∨
        ∃ v, (SecretCertInjectionAnnotationKeyPrefix ++ name, v) ∈ annotations) := by
  induction annotations generalizing acc with
  | nil => simp
  | cons kv rest ih =>
    rcases kv with ⟨k, v⟩
    rw [List.foldl_cons, ih]
    by_cases hp : HasPrefix k SecretCertInjectionAnnotationKeyPrefix = true
    · simp only [hp, if_true, lookup_mapSet]
      by_cases hn : name = TrimPrefix k SecretCertInjectionAnnotationKeyPrefix
      · have hk : k = SecretCertInjectionAnnotationKeyPrefix ++ name :=
          (hasPrefix_trimPrefix_iff _ _ _).1 ⟨hp, hn.symm⟩
        simp only [if_pos hn, Option.isSome_some, true_or, true_iff]
        exact Or.inr ⟨v, by rw [hk]; exact List.mem_cons_self _ _⟩
      · have hk : k ≠ SecretCertInjectionAnnotationKeyPrefix ++ name := fun hk =>
          hn ((hasPrefix_trimPrefix_iff _ _ _).2 hk).2.symm
        simp only [if_neg hn, List.mem_cons, Prod.mk.injEq]
        constructor
        · rintro (h | ⟨v', h⟩)
          · exact Or.inl h
          · exact Or.inr ⟨v', Or.inr h⟩
        · rintro (h | ⟨v', h | h⟩)
          · exact Or.inl h
          · exact absurd h.1.symm hk
          · exact Or.inr ⟨v', h⟩
    · have hk : ∀ name, k ≠ SecretCertInjectionAnnotationKeyPrefix ++ name := fun name hk =>
        hp ((hasPrefix_trimPrefix_iff _ _ _).2 hk).1
      simp only [hp, Bool.false_eq_true, if_false, List.mem_cons, Prod.mk.injEq]
      constructor
      · rintro (h | ⟨v', h⟩)
        · exact Or.inl h
        · exact Or.inr ⟨v', Or.inr h⟩
      · rintro (h | ⟨v', h | h⟩)
        · exact Or.inl h
        · exact absurd h.1.symm (hk name)
        · exact Or.inr ⟨v', h⟩

/-- Annotations whose key lacks the fixed start do not change the collected map. -/
theorem collect_filter (annotations : List (String × String)) :
    collectWebhookToSecret
        (annotations.filter fun kv => HasPrefix kv.1 SecretCertInjectionAnnotationKeyPrefix) =
      collectWebhookToSecret annotations := by
  unfold collectWebhookToSecret
  generalize ([] : List (String × NamespacedName)) = acc
  induction annotations generalizing acc with
  | nil => rfl
  | cons kv rest ih =>
    by_cases hp : HasPrefix kv.1 SecretCertInjectionAnnotationKeyPrefix = true
    · simp only [List.filter, hp, List.foldl_cons, if_true]
      exact ih _
    · simp only [List.filter, hp, List.foldl_cons, Bool.false_eq_true, if_false]
      exact ih _

/-- The method `Skip` answers `false` exactly for the bound names. -/
theorem Skip_iff_lookup {σ : Type} (s : secretCertsReadWriter σ) (name : String) :
    s.Skip name = false ↔ (s.webhookToSecrets.lookup name).isSome = true := by
  unfold secretCertsReadWriter.Skip
  cases s.webhookToSecrets.lookup name <;> simp

/-- The method `deepEqual` decides equality of elements. -/
theorem deepEqual_iff (e other : webhookConfigElement) :
    e.deepEqual other = true ↔ e = other := by
  cases e <;> cases other <;>
    simp [webhookConfigElement.deepEqual, webhookConfigElement.getMutatingWebhookConfig,
      webhookConfigElement.getValidatingWebhookConfig]

/-- A list of handler calls holds no `update`. -/
theorem filter_isUpdate_of_handler_calls (cs : List Call)
    (h : ∀ c ∈ cs, ∃ n, c = .Skip n ∨ c = .Read n ∨ c = .Write n) :
    cs.filter Call.isUpdate = [] := by
  rw [List.filter_eq_nil_iff]
  intro c hc
  obtain ⟨n, rfl | rfl | rfl⟩ := h c hc <;> simp [Call.isUpdate]

/-- The calls of the reconcile phase are the calls of the steps of its loop. -/
theorem reconcile_calls {σ : Type} (ch : Option (CertsHandler σ)) (e : webhookConfigElement)
    (x : Exec σ) :
    ∃ cs, (reconcile ch e x).2.calls = x.calls ++ cs ∧
      ∀ c ∈ cs, ∃ w ∈ e.getWebhooks, c = .Skip w.Name ∨
        ((c = .Read w.Name ∨ c = .Write w.Name) ∧ ¬ skipsAlways ch w.Name) := by
  obtain ⟨cs, h, m⟩ := syncWebhooks_calls ch e.getWebhooks x
  refine ⟨cs, ?_, ?_⟩
  · unfold reconcile
    have hc : e.deepCopy = e := by cases e <;> rfl
    rw [hc]
    rcases hl : syncWebhooks ch e.getWebhooks x with ⟨o, x2⟩
    rw [hl] at h
    cases o <;> simpa [hl] using h
  · exact m

/-- On the clone of the element of a supported object, the client built for that object
hands the wrapped configuration to the store. -/
theorem update_of_clone {σ : Type} (bc : GenericWebhookConfigurationController σ)
    (webhookConfiguration : RuntimeObject) (webhookConfig : webhookConfigElement)
    (webhookClient : delegatingWebhookClient σ) (webhooks : List Webhook) (w : σ)
    (hsupported : newWebhookElement webhookConfiguration = .ok webhookConfig)
    (hclient : bc.newWebhookClient webhookConfiguration = .ok webhookClient) :
    webhookClient.update (webhookConfig.deepCopy.setWebhooks webhooks) w =
      bc.KubernetesClientSet.updateElement (webhookConfig.deepCopy.setWebhooks webhooks) w := by
  cases webhookConfiguration with
  | Mutating typed =>
    simp only [newWebhookElement, Except.ok.injEq] at hsupported
    simp only [GenericWebhookConfigurationController.newWebhookClient, Except.ok.injEq] at hclient
    subst hsupported hclient
    rfl
  | Validating typed =>
    simp only [newWebhookElement, Except.ok.injEq] at hsupported
    simp only [GenericWebhookConfigurationController.newWebhookClient, Except.ok.injEq] at hclient
    subst hsupported hclient
    rfl
  | Other typeName => simp [newWebhookElement] at hsupported

/-- A supported object gets a client. -/
theorem newWebhookClient_of_supported {σ : Type} (bc : GenericWebhookConfigurationController σ)
    (webhookConfiguration : RuntimeObject) (webhookConfig : webhookConfigElement)
    (hsupported : newWebhookElement webhookConfiguration = .ok webhookConfig) :
    ∃ webhookClient, bc.newWebhookClient webhookConfiguration = .ok webhookClient := by
  cases webhookConfiguration with
  | Mutating typed => exact ⟨_, rfl⟩
  | Validating typed => exact ⟨_, rfl⟩
  | Other typeName => simp [newWebhookElement] at hsupported

/-- The reconcile phase leaves every webhook whose name is always skipped in place. -/
theorem reconcile_result {σ : Type} (ch : Option (CertsHandler σ)) (e cloned : webhookConfigElement)
    (x x2 : Exec σ) (h : reconcile ch e x = (some cloned, x2)) :
    ∀ (i : Nat) (entry : Webhook), e.getWebhooks[i]? = some entry → skipsAlways ch entry.Name →
      cloned.getWebhooks[i]? = some entry := by
  simp only [reconcile] at h
  have hc : e.deepCopy = e := by cases e <;> rfl
  rw [hc] at h
  rcases hl : syncWebhooks ch e.getWebhooks x with ⟨o, x3⟩
  rw [hl] at h
  cases o with
  | none => simp at h
  | some webhooks =>
    simp only [Prod.mk.injEq, Option.some.injEq] at h
    have hres := (syncWebhooks_result ch e.getWebhooks webhooks x (by rw [hl])).2
    have hg : cloned.getWebhooks = webhooks := by
      rw [← h.1]
      cases e <;> rfl
    rw [hg]
    exact hres

/-- What the secret-backed factory builds for a supported object with annotations. -/
theorem factory_New_spec {σ : Type} (s : SecretCertsReadWriterFactory σ)
    (webhookConfiguration : RuntimeObject) (accessor : ObjectMeta)
    (annotations : List (String × String))
    (hsupported : metaAccessor webhookConfiguration = .ok accessor)
    (hannotations : accessor.Annotations = some annotations) :
    ∃ ch, s.New webhookConfiguration = .ok (some ch) ∧
      (∀ name, ch.Skip name = false ↔
        ∃ v, (SecretCertInjectionAnnotationKeyPrefix ++ name, v) ∈ annotations) ∧
      ch.webhookToSecrets =
        collectWebhookToSecret
          (annotations.filter fun kv => HasPrefix kv.1 SecretCertInjectionAnnotationKeyPrefix) := by
  cases webhookConfiguration with
  | Mutating typed =>
    simp only [metaAccessor, Except.ok.injEq] at hsupported
    subst hsupported
    refine ⟨{ kubernetesClientSet := s.KubernetesClientSet
              kubernetesInformers := s.KubernetesInformers
              webhookConfig := _
              webhookMap := []
              webhookToSecrets := collectWebhookToSecret annotations
              getCertProvisioner := s.GetCertProvisioner },
      by simp only [SecretCertsReadWriterFactory.New, metaAccessor, hannotations]; rfl, ?_, ?_⟩
    · intro name
      rw [Skip_iff_lookup]
      simpa [collectWebhookToSecret] using lookup_foldl_collect annotations [] name
    · exact (collect_filter annotations).symm
  | Validating typed =>
    simp only [metaAccessor, Except.ok.injEq] at hsupported
    subst hsupported
    refine ⟨{ kubernetesClientSet := s.KubernetesClientSet
              kubernetesInformers := s.KubernetesInformers
              webhookConfig := _
              webhookMap := []
              webhookToSecrets := collectWebhookToSecret annotations
              getCertProvisioner := s.GetCertProvisioner },
      by simp only [SecretCertsReadWriterFactory.New, metaAccessor, hannotations]; rfl, ?_, ?_⟩
    · intro name
      rw [Skip_iff_lookup]
      simpa [collectWebhookToSecret] using lookup_foldl_collect annotations [] name
    · exact (collect_filter annotations).symm
  | Other typeName => simp [metaAccessor] at hsupported

/-- The handler that the secret-backed factory builds always skips a name without annotation,
and building it leaves the world alone. -/
theorem factory_skips_unannotated {σ : Type} (lib : Lib) (s : SecretCertsReadWriterFactory σ)
    (webhookConfiguration : RuntimeObject) (accessor : ObjectMeta) (name : String) (w w1 : σ)
    (certsHander : Option (CertsHandler σ))
    (hmeta : metaAccessor webhookConfiguration = .ok accessor)
    (hplain : ∀ v, (SecretCertInjectionAnnotationKeyPrefix ++ name, v) ∉
      accessor.Annotations.getD [])
    (hnew : (s.toCertsHandlerFactory lib).New webhookConfiguration w = (.ok certsHander, w1)) :
    skipsAlways certsHander name ∧ w1 = w := by
  cases hann : accessor.Annotations with
  | none =>
    have hN : s.New webhookConfiguration = .ok none := by
      cases webhookConfiguration with
      | Mutating typed =>
        simp only [metaAccessor, Except.ok.injEq] at hmeta
        subst hmeta
        simp only [SecretCertsReadWriterFactory.New, metaAccessor, hann]
      | Validating typed =>
        simp only [metaAccessor, Except.ok.injEq] at hmeta
        subst hmeta
        simp only [SecretCertsReadWriterFactory.New, metaAccessor, hann]
      | Other typeName => simp [metaAccessor] at hmeta
    simp only [SecretCertsReadWriterFactory.toCertsHandlerFactory, hN, Prod.mk.injEq,
      Res.ok.injEq] at hnew
    refine ⟨?_, hnew.2.symm⟩
    intro h hh
    rw [← hnew.1] at hh
    cases hh
  | some annotations =>
    obtain ⟨rw, hN, hskip, _⟩ := factory_New_spec s webhookConfiguration accessor
      annotations hmeta hann
    simp only [SecretCertsReadWriterFactory.toCertsHandlerFactory, hN, Prod.mk.injEq,
      Res.ok.injEq] at hnew
    refine ⟨?_, hnew.2.symm⟩
    intro h hh world
    rw [← hnew.1] at hh
    simp only [Option.some.injEq] at hh
    rw [← hh]
    have hs : rw.Skip name = true := by
      rcases hb : rw.Skip name with _ | _
      · have := (hskip name).1 hb
        obtain ⟨v, hv⟩ := this
        rw [hann] at hplain
        exact absurd hv (hplain v)
      · rfl
    simp [secretCertsReadWriter.toCertsHandler, hs]


/-- What `Sync` does once the factory succeeded and the loop completed. -/
theorem Sync_of_reconcile {σ : Type}
    (bc : GenericWebhookConfigurationController σ) (webhookConfiguration : RuntimeObject)
    (webhookConfig cloned : webhookConfigElement) (certsHander : Option (CertsHandler σ))
    (x x2 : Exec σ) (w1 : σ)
    (hsupported : newWebhookElement webhookConfiguration = .ok webhookConfig)
    (hnew : bc.CertsHandlerFactory.New webhookConfiguration x.world = (.ok certsHander, w1))
    (hloop : reconcile certsHander webhookConfig { x with world := w1 } = (some cloned, x2)) :
    (webhookConfig.deepEqual cloned = true →
      bc.Sync webhookConfiguration x = (.ok (), x2)) ∧
    (webhookConfig.deepEqual cloned = false →
      bc.Sync webhookConfiguration x =
        x2.call (.update cloned) (bc.KubernetesClientSet.updateElement cloned)) ∧
    (bc.Sync webhookConfiguration x).2.calls.filter Call.isUpdate =
      x.calls.filter Call.isUpdate ++
        (if webhookConfig.deepEqual cloned = true then [] else [.update cloned]) := by
  obtain ⟨webhookClient, hclient⟩ := newWebhookClient_of_supported bc _ _ hsupported
  have hcalls : x2.calls.filter Call.isUpdate = x.calls.filter Call.isUpdate := by
    obtain ⟨cs, h, m⟩ := reconcile_calls certsHander webhookConfig { x with world := w1 }
    rw [hloop] at h
    simp only at h
    rw [h, List.filter_append, filter_isUpdate_of_handler_calls cs, List.append_nil]
    intro c hc
    obtain ⟨w, _, hw⟩ := m c hc
    exact ⟨w.Name, by tauto⟩
  have hupd : webhookClient.update cloned = bc.KubernetesClientSet.updateElement cloned := by
    funext w
    simp only [reconcile] at hloop
    rcases hl : syncWebhooks certsHander webhookConfig.deepCopy.getWebhooks
      { x with world := w1 } with ⟨o, x3⟩
    rw [hl] at hloop
    cases o with
    | none => simp at hloop
    | some webhooks =>
      simp only [Prod.mk.injEq, Option.some.injEq] at hloop
      rw [← hloop.1]
      exact update_of_clone bc _ _ _ _ _ hsupported hclient
  have heq : bc.Sync webhookConfiguration x =
      if webhookConfig.deepEqual cloned then (.ok (), x2)
      else x2.call (.update cloned) (bc.KubernetesClientSet.updateElement cloned) := by
    simp only [GenericWebhookConfigurationController.Sync, hnew, hclient, hsupported, hloop, hupd]
  refine ⟨?_, ?_, ?_⟩
  · intro h
    rw [heq, if_pos h]
  · intro h
    rw [heq, h]
    rfl
  · rw [heq]
    by_cases h : webhookConfig.deepEqual cloned = true
    · rw [if_pos h, if_pos h, hcalls, List.append_nil]
    · rw [if_neg h, if_neg h]
      simp [Exec.call, List.filter_append, hcalls, Call.isUpdate]

/-- Decoding an encoded secret gives the certificates back. -/
theorem secretToCerts_certsToSecret (certs : Certs) (sec : NamespacedName) :
    secretToCerts (certsToSecret certs sec) = .ok certs := by
  simp [secretToCerts, certsToSecret, CACertName, ServerKeyName, ServerCertName, List.lookup,
    List.find?]

/-- Recording a request does not change what is stored. -/
theorem findSecret_record (c : Cluster) (a : Action) (ns name : String) :
    (c.record a).findSecret ns name = c.findSecret ns name := rfl


/-- A bundle that contains the CA is left as it is. -/
theorem mergeCABundle_of_contains (webhook : Webhook) (certs : Certs)
    (h : certs.CACert <:+: webhook.ClientConfig.CABundle) : mergeCABundle webhook certs = webhook := by
  simp [mergeCABundle, (bytesContains_iff _ _).2 h]

/-- One step on a settled webhook reads at most, succeeds and changes neither the webhook nor
the secrets of the store and of the cache. -/
theorem syncSecretWithWebhook_settled (lib : Lib) (rw : secretCertsReadWriter Cluster)
    (entry : Webhook) (x : Exec Cluster) (hinformers : rw.kubernetesInformers = Cluster.informers)
    (hsettled : settled x.world.cache rw.webhookToSecrets entry) :
    ∃ x' cs, syncSecretWithWebhook entry (some (rw.toCertsHandler lib)) x = (.ok (), entry, x') ∧
      (x'.world.secrets = x.world.secrets ∧ x'.world.cache = x.world.cache) ∧
      x'.calls = x.calls ++ cs ∧
      ∀ c ∈ cs, c = .Skip entry.Name ∨ c = .Read entry.Name := by
  cases hsec : rw.webhookToSecrets.lookup entry.Name with
  | none =>
    refine ⟨{ world := x.world, calls := x.calls ++ [.Skip entry.Name] }, [.Skip entry.Name],
      ?_, ⟨rfl, rfl⟩, rfl, by simp⟩
    simp [syncSecretWithWebhook, Exec.call, secretCertsReadWriter.toCertsHandler,
      secretCertsReadWriter.Skip, hsec]
  | some sec =>
    obtain ⟨secret, certs, hfind, hdec, hin⟩ := hsettled sec hsec
    have hfind' : x.world.findCached sec.Namespace sec.Name = some secret := hfind
    refine ⟨{ world := x.world.record (.getSecret sec.Namespace sec.Name),
              calls := x.calls ++ [.Skip entry.Name] ++ [.Read entry.Name] },
      [.Skip entry.Name, .Read entry.Name], ?_, ⟨rfl, rfl⟩, by simp, by simp⟩
    simp [syncSecretWithWebhook, Exec.call, secretCertsReadWriter.toCertsHandler,
      secretCertsReadWriter.Skip, hsec, obtainCerts, secretCertsReadWriter.Read, hinformers,
      Cluster.informers, hfind', andThen, hdec, validCertInSecret,
      mergeCABundle_of_contains entry certs hin]

/-- The loop over settled webhooks reads at most, completes and changes neither the webhooks nor
the secrets of the store and of the cache. -/
theorem syncWebhooks_settled (lib : Lib) (rw : secretCertsReadWriter Cluster)
    (ws : List Webhook) (x : Exec Cluster) (hinformers : rw.kubernetesInformers = Cluster.informers)
    (hsettled : ∀ entry ∈ ws, settled x.world.cache rw.webhookToSecrets entry) :
    ∃ x' cs, syncWebhooks (some (rw.toCertsHandler lib)) ws x = (some ws, x') ∧
      (x'.world.secrets = x.world.secrets ∧ x'.world.cache = x.world.cache) ∧
      x'.calls = x.calls ++ cs ∧
      ∀ c ∈ cs, ∃ n, c = .Skip n ∨ c = .Read n := by
  induction ws generalizing x with
  | nil => exact ⟨x, [], rfl, ⟨rfl, rfl⟩, by simp, by simp⟩
  | cons w rest ih =>
    obtain ⟨x1, cs1, h1, hs1, hc1, hm1⟩ := syncSecretWithWebhook_settled lib rw w x hinformers
      (hsettled w (List.mem_cons_self _ _))
    obtain ⟨x2, cs2, h2, hs2, hc2, hm2⟩ := ih x1 (by
      intro entry he
      rw [hs1.2]
      exact hsettled entry (List.mem_cons_of_mem _ he))
    refine ⟨x2, cs1 ++ cs2, ?_, ⟨by rw [hs2.1, hs1.1], by rw [hs2.2, hs1.2]⟩,
      by rw [hc2, hc1, List.append_assoc], ?_⟩
    · simp [syncWebhooks, h1, h2]
    · intro c hc
      rcases List.mem_append.1 hc with hc | hc
      · exact ⟨w.Name, hm1 c hc⟩
      · exact hm2 c hc

/-- The merge keeps the name of the webhook. -/
theorem mergeCABundle_name (webhook : Webhook) (certs : Certs) :
    (mergeCABundle webhook certs).Name = webhook.Name := by
  cases h : bytesContains webhook.ClientConfig.CABundle certs.CACert <;> simp [mergeCABundle, h]

/-- The merge changes the bundle only, by extending it. -/
theorem mergeCABundle_onlyBundleExtended (webhook : Webhook) (certs : Certs) :
    onlyBundleExtended webhook (mergeCABundle webhook certs) := by
  cases h : bytesContains webhook.ClientConfig.CABundle certs.CACert <;>
    simp [onlyBundleExtended, mergeCABundle, h]

/-- A webhook left alone is unchanged but for an extended bundle. -/
theorem onlyBundleExtended_refl (webhook : Webhook) : onlyBundleExtended webhook webhook :=
  ⟨rfl, List.prefix_refl _⟩

/-- The first call that `obtainCerts` issues is `Read`. -/
theorem obtainCerts_reads {σ : Type} (ch : CertsHandler σ) (n : String) (x : Exec σ) :
    ∃ cs, (obtainCerts ch n x).2.calls = x.calls ++ cs ∧ Call.Read n ∈ cs := by
  unfold obtainCerts
  simp only [Exec.call, validCertInSecret, Bool.not_true, Bool.false_eq_true, if_false]
  rcases hr : ch.Read n x.world with ⟨r, w⟩
  rcases r with certs | e | _
  · exact ⟨[.Read n], by simp [andThen], by simp⟩
  · by_cases hnf : IsNotFound e = true
    · rcases hw : ch.Write n w with ⟨r2, w2⟩
      rcases r2 with certs | e2 | _ <;>
        exact ⟨[.Read n, .Write n], by simp [andThen, hnf, hw], by simp⟩
    · exact ⟨[.Read n], by simp [andThen, hnf], by simp⟩
  · exact ⟨[.Read n], by simp [andThen], by simp⟩

/-- One step keeps the name of its webhook and changes the bundle at most, by extending it;
a changed webhook means that `Read` was called for it. -/
theorem syncSecretWithWebhook_frame {σ : Type} (webhook : Webhook)
    (ch : Option (CertsHandler σ)) (x : Exec σ) :
    ∃ cs, (syncSecretWithWebhook webhook ch x).2.2.calls = x.calls ++ cs ∧
      (syncSecretWithWebhook webhook ch x).2.1.Name = webhook.Name ∧
      onlyBundleExtended webhook (syncSecretWithWebhook webhook ch x).2.1 ∧
      ((syncSecretWithWebhook webhook ch x).2.1 ≠ webhook → Call.Read webhook.Name ∈ cs) := by
  cases ch with
  | none =>
    exact ⟨[], by simp [syncSecretWithWebhook], rfl, onlyBundleExtended_refl _,
      by simp [syncSecretWithWebhook]⟩
  | some h =>
    rcases hs : h.Skip webhook.Name x.world with ⟨b, w⟩
    rcases b with _ | b
    · have hstep : syncSecretWithWebhook webhook (some h) x =
          (.fault, webhook, { world := w, calls := x.calls ++ [.Skip webhook.Name] }) := by
        simp [syncSecretWithWebhook, Exec.call, hs]
      rw [hstep]
      exact ⟨[.Skip webhook.Name], rfl, rfl, onlyBundleExtended_refl _, by simp⟩
    · cases b
      · obtain ⟨cs, hcs, hmem⟩ := obtainCerts_reads h webhook.Name
          { world := w, calls := x.calls ++ [.Skip webhook.Name] }
        rcases ho : obtainCerts h webhook.Name
          { world := w, calls := x.calls ++ [.Skip webhook.Name] } with ⟨r, x2⟩
        rw [ho] at hcs
        simp only at hcs
        have hcalls : x2.calls = x.calls ++ (.Skip webhook.Name :: cs) := by
          rw [hcs, List.append_assoc]
          rfl
        have hread : Call.Read webhook.Name ∈ Call.Skip webhook.Name :: cs :=
          List.mem_cons_of_mem _ hmem
        rcases r with certs | e | _
        · have hstep : syncSecretWithWebhook webhook (some h) x =
              (.ok (), mergeCABundle webhook certs, x2) := by
            simp [syncSecretWithWebhook, Exec.call, hs, ho]
          rw [hstep]
          exact ⟨_, hcalls, mergeCABundle_name _ _, mergeCABundle_onlyBundleExtended _ _,
            fun _ => hread⟩
        · have hstep : syncSecretWithWebhook webhook (some h) x = (.err e, webhook, x2) := by
            simp [syncSecretWithWebhook, Exec.call, hs, ho]
          rw [hstep]
          exact ⟨_, hcalls, rfl, onlyBundleExtended_refl _, fun _ => hread⟩
        · have hstep : syncSecretWithWebhook webhook (some h) x = (.fault, webhook, x2) := by
            simp [syncSecretWithWebhook, Exec.call, hs, ho]
          rw [hstep]
          exact ⟨_, hcalls, rfl, onlyBundleExtended_refl _, fun _ => hread⟩
      · have hstep : syncSecretWithWebhook webhook (some h) x =
            (.ok (), webhook, { world := w, calls := x.calls ++ [.Skip webhook.Name] }) := by
          simp [syncSecretWithWebhook, Exec.call, hs]
        rw [hstep]
        exact ⟨[.Skip webhook.Name], rfl, rfl, onlyBundleExtended_refl _, by simp⟩

/-- The loop keeps the number and the order of the webhooks; position by position the names
are kept and the bundle is changed at most, by extending it. -/
theorem syncWebhooks_frame {σ : Type} (ch : Option (CertsHandler σ)) (ws ws' : List Webhook)
    (x x' : Exec σ) (hres : syncWebhooks ch ws x = (some ws', x')) :
    ∃ cs, x'.calls = x.calls ++ cs ∧ ws'.length = ws.length ∧
      ∀ (i : Nat) (before after : Webhook), ws[i]? = some before → ws'[i]? = some after →
        after.Name = before.Name ∧ onlyBundleExtended before after ∧
        (after ≠ before → Call.Read before.Name ∈ cs) := by
  induction ws generalizing x ws' with
  | nil =>
    simp only [syncWebhooks, Prod.mk.injEq, Option.some.injEq] at hres
    obtain ⟨h1, h2⟩ := hres
    subst h1 h2
    exact ⟨[], by simp, rfl, by simp⟩
  | cons w rest ih =>
    obtain ⟨cs1, hc1, hn1, hb1, hr1⟩ := syncSecretWithWebhook_frame w ch x
    rcases hstep : syncSecretWithWebhook w ch x with ⟨r, w', x1⟩
    rw [hstep] at hc1 hn1 hb1 hr1
    simp only at hc1 hn1 hb1 hr1
    rcases hloop : syncWebhooks ch rest x1 with ⟨o, x2⟩
    have key : ∀ rest', o = some rest' → ws' = w' :: rest' → x' = x2 →
        ∃ cs, x'.calls = x.calls ++ cs ∧ ws'.length = (w :: rest).length ∧
          ∀ (i : Nat) (before after : Webhook), (w :: rest)[i]? = some before →
            ws'[i]? = some after →
            after.Name = before.Name ∧ onlyBundleExtended before after ∧
            (after ≠ before → Call.Read before.Name ∈ cs) := by
      intro rest' ho hws hx
      subst ho hws hx
      obtain ⟨cs2, hc2, hl, hi⟩ := ih rest' x1 hloop
      refine ⟨cs1 ++ cs2, by rw [hc2, hc1, List.append_assoc], by simp [hl], ?_⟩
      intro i before after hb ha
      cases i with
      | zero =>
        simp only [List.getElem?_cons_zero, Option.some.injEq] at hb ha
        subst hb ha
        exact ⟨hn1, hb1, fun h => List.mem_append_left _ (hr1 h)⟩
      | succ i =>
        simp only [List.getElem?_cons_succ] at hb ha
        obtain ⟨h1, h2, h3⟩ := hi i before after hb ha
        exact ⟨h1, h2, fun h => List.mem_append_right _ (h3 h)⟩
    rcases r with u | e | _
    · cases o with
      | none => simp [syncWebhooks, hstep, hloop] at hres
      | some rest' =>
        simp only [syncWebhooks, hstep, hloop, Prod.mk.injEq, Option.some.injEq] at hres
        exact key rest' rfl hres.1.symm hres.2.symm
    · cases o with
      | none => simp [syncWebhooks, hstep, hloop] at hres
      | some rest' =>
        simp only [syncWebhooks, hstep, hloop, Prod.mk.injEq, Option.some.injEq] at hres
        exact key rest' rfl hres.1.symm hres.2.symm
    · simp [syncWebhooks, hstep] at hres

/-- The clone after the loop is the original but for extended bundles. -/
theorem reconcile_frame {σ : Type} (ch : Option (CertsHandler σ))
    (e cloned : webhookConfigElement) (x x' : Exec σ)
    (hres : reconcile ch e x = (some cloned, x')) :
    ∃ cs, x'.calls = x.calls ++ cs ∧ cloned.getType = e.getType ∧
      cloned.setWebhooks e.getWebhooks = e ∧
      cloned.getWebhooks.length = e.getWebhooks.length ∧
      ∀ (i : Nat) (before after : Webhook), e.getWebhooks[i]? = some before →
        cloned.getWebhooks[i]? = some after →
        after.Name = before.Name ∧ onlyBundleExtended before after ∧
        (after ≠ before → Call.Read before.Name ∈ cs) := by
  simp only [reconcile] at hres
  have hc : e.deepCopy = e := by cases e <;> rfl
  rw [hc] at hres
  rcases hl : syncWebhooks ch e.getWebhooks x with ⟨o, x3⟩
  rw [hl] at hres
  cases o with
  | none => simp at hres
  | some webhooks =>
    simp only [Prod.mk.injEq, Option.some.injEq] at hres
    obtain ⟨h1, h2⟩ := hres
    subst h1 h2
    obtain ⟨cs, hcs, hlen, hi⟩ := syncWebhooks_frame ch e.getWebhooks webhooks x x3 hl
    have hg : (e.setWebhooks webhooks).getWebhooks = webhooks := by cases e <;> rfl
    refine ⟨cs, hcs, ?_, ?_, ?_, ?_⟩
    · cases e <;> rfl
    · cases e <;> rfl
    · rw [hg, hlen]
    · rw [hg]
      exact hi

/-- The reconcile phase issues no `update`. -/
theorem reconcile_no_update {σ : Type} (ch : Option (CertsHandler σ)) (e : webhookConfigElement)
    (x : Exec σ) (u : webhookConfigElement) (hx : Call.update u ∉ x.calls) :
    Call.update u ∉ (reconcile ch e x).2.calls := by
  obtain ⟨cs, hcs, hm⟩ := reconcile_calls ch e x
  rw [hcs]
  intro h
  rcases List.mem_append.1 h with h | h
  · exact hx h
  · obtain ⟨w, _, hw | ⟨hw | hw, _⟩⟩ := hm _ h <;> cases hw

/-- The result of `secretToCerts` by the presence of the three keys. -/
theorem secretToCerts_cases (secret : Secret) :
    secretToCerts secret =
      match secret.Data.lookup CACertName, secret.Data.lookup ServerCertName,
        secret.Data.lookup ServerKeyName with
      | some ca, some cert, some key => .ok { Key := key, Cert := cert, CACert := ca }
      | none, _, _ => .error (.requiredKeyMissing CACertName)
      | some _, none, _ => .error (.requiredKeyMissing ServerCertName)
      | some _, some _, none => .error (.requiredKeyMissing ServerKeyName) := by
  unfold secretToCerts
  cases h1 : secret.Data.lookup CACertName <;> cases h2 : secret.Data.lookup ServerCertName <;>
    cases h3 : secret.Data.lookup ServerKeyName <;> simp [List.find?, h1, h2, h3]

/-- Recording a request does not change what the cache holds. -/
theorem findCached_record (c : Cluster) (a : Action) (ns name : String) :
    (c.record a).findCached ns name = c.findCached ns name := rfl

/-- `Read` of a bound name returns the certificates of the secret that the cache holds. -/
theorem Read_of_cached (s : secretCertsReadWriter Cluster) (webhookName : String)
    (sec : NamespacedName) (secret : Secret) (certs : Certs) (c : Cluster)
    (hinformers : s.kubernetesInformers = Cluster.informers)
    (hsec : s.webhookToSecrets.lookup webhookName = some sec)
    (hfind : c.findCached sec.Namespace sec.Name = some secret)
    (hdec : secretToCerts secret = .ok certs) :
    s.Read webhookName c = (.ok certs, c.record (.getSecret sec.Namespace sec.Name)) := by
  simp [secretCertsReadWriter.Read, hsec, hinformers, Cluster.informers, hfind, andThen, hdec]

/-- `Read` of a bound name returns not-found when the cache holds no secret for it. -/
theorem Read_of_not_cached (s : secretCertsReadWriter Cluster) (webhookName : String)
    (sec : NamespacedName) (c : Cluster)
    (hinformers : s.kubernetesInformers = Cluster.informers)
    (hsec : s.webhookToSecrets.lookup webhookName = some sec)
    (hfind : c.findCached sec.Namespace sec.Name = none) :
    s.Read webhookName c =
      (.err (.status .NotFound), c.record (.getSecret sec.Namespace sec.Name)) := by
  simp [secretCertsReadWriter.Read, hsec, hinformers, Cluster.informers, hfind, andThen]

/-! ## Error propagation in `Sync` -/

/-- C1: The error of a failed per-entry step is not returned by `Sync`. On a configuration with
two annotated webhooks, where the secret of the first lacks a required key, the step for the
first webhook fails with the decoding error of `Read` (not a not-found error), and `Sync` still
runs the step for the second webhook, calls `update` with the clone and returns nil. -/
theorem Sync_discards_entry_error :
    (syncSecretWithWebhook (Sample.hook "hook-a" [])
        (Cluster.handlerOf sampleLib Sample.fresh (.Mutating Sample.twoHooks)
          (Sample.start [Sample.brokenSecretA, Sample.goodSecretB]).world)
        (Sample.start [Sample.brokenSecretA, Sample.goodSecretB])).1
      = .err (.requiredKeyMissing "cert.pem") ∧
    IsNotFound (.requiredKeyMissing "cert.pem") = false ∧
    ((Cluster.controller sampleLib Sample.fresh).Sync (.Mutating Sample.twoHooks)
        (Sample.start [Sample.brokenSecretA, Sample.goodSecretB])).1 = .ok () ∧
    ((Cluster.controller sampleLib Sample.fresh).Sync (.Mutating Sample.twoHooks)
        (Sample.start [Sample.brokenSecretA, Sample.goodSecretB])).2.calls =
      [.Skip "hook-a", .Read "hook-a", .Skip "hook-b", .Read "hook-b",
        .update (.mutatingWebhookElement
          (Sample.mutating (some [Sample.annotationA, Sample.annotationB])
            [Sample.hook "hook-a" [], Sample.hook "hook-b" [3, 3]]))] ∧
    ((Cluster.controller sampleLib Sample.fresh).Sync (.Mutating Sample.twoHooks)
        (Sample.start [Sample.brokenSecretA, Sample.goodSecretB])).2.world.actions =
      [.getSecret "ns1" "sec-a", .getSecret "ns1" "sec-b",
        .updateMutating (Sample.mutating (some [Sample.annotationA, Sample.annotationB])
            [Sample.hook "hook-a" [], Sample.hook "hook-b" [3, 3]])] := by
  decide

/-! ## The CA merge -/

/-- C5: CA merge. For a webhook that the handler does not skip and for which the step obtains
certificates with CA bytes `c`, `syncSecretWithWebhook` succeeds and leaves the bundle `b` as it
is when `c` occurs in `b` as a contiguous run of bytes, and sets it to `b` followed by `c`
otherwise; either way the resulting bundle contains `c` and starts with `b`. -/
theorem syncSecretWithWebhook_merges_ca {σ : Type} (webhook : Webhook) (ch : CertsHandler σ)
    (x x1 x2 : Exec σ) (certs : Certs)
    (hskip : x.call (.Skip webhook.Name) (ch.Skip webhook.Name) = (some false, x1))
    (hcerts : obtainCerts ch webhook.Name x1 = (.ok certs, x2)) :
    ∃ webhook',
      syncSecretWithWebhook webhook (some ch) x = (.ok (), webhook', x2) ∧
      (certs.CACert <:+: webhook.ClientConfig.CABundle →
        webhook'.ClientConfig.CABundle = webhook.ClientConfig.CABundle) ∧
      (¬ certs.CACert <:+: webhook.ClientConfig.CABundle →
        webhook'.ClientConfig.CABundle = webhook.ClientConfig.CABundle ++ certs.CACert) ∧
      certs.CACert <:+: webhook'.ClientConfig.CABundle ∧
      webhook.ClientConfig.CABundle <+: webhook'.ClientConfig.CABundle := by
  refine ⟨mergeCABundle webhook certs, ?_, ?_, ?_, ?_, ?_⟩
  · simp only [syncSecretWithWebhook, hskip, hcerts]
  · intro h; rw [mergeCABundle_bundle, if_pos h]
  · intro h; rw [mergeCABundle_bundle, if_neg h]
  · rw [mergeCABundle_bundle]
    split
    · assumption
    · exact (List.suffix_append _ _).isInfix
  · rw [mergeCABundle_bundle]
    split
    · exact List.prefix_refl _
    · exact List.prefix_append _ _

/-- The CA merge on `hook-a` with an empty bundle and the stored secret `ns1/sec-a`: the step
is not skipped, `Read` gives the stored certificates, and the bundle becomes their CA. -/
theorem syncSecretWithWebhook_merges_ca_witness :
    (Sample.start [Sample.goodSecretA]).call (.Skip (Sample.hook "hook-a" []).Name)
        ((Sample.readWriterA.toCertsHandler sampleLib).Skip (Sample.hook "hook-a" []).Name) =
      (some false, Sample.served [Sample.goodSecretA] [] [.Skip "hook-a"]) ∧
    obtainCerts (Sample.readWriterA.toCertsHandler sampleLib) (Sample.hook "hook-a" []).Name
        (Sample.served [Sample.goodSecretA] [] [.Skip "hook-a"]) =
      (.ok Sample.stored,
        Sample.served [Sample.goodSecretA] [.getSecret "ns1" "sec-a"]
          [.Skip "hook-a", .Read "hook-a"]) ∧
    ∃ webhook',
      syncSecretWithWebhook (Sample.hook "hook-a" [])
          (some (Sample.readWriterA.toCertsHandler sampleLib))
          (Sample.start [Sample.goodSecretA]) =
        (.ok (), webhook',
          Sample.served [Sample.goodSecretA] [.getSecret "ns1" "sec-a"]
            [.Skip "hook-a", .Read "hook-a"]) ∧
      (Sample.stored.CACert <:+: (Sample.hook "hook-a" []).ClientConfig.CABundle →
        webhook'.ClientConfig.CABundle = (Sample.hook "hook-a" []).ClientConfig.CABundle) ∧
      (¬ Sample.stored.CACert <:+: (Sample.hook "hook-a" []).ClientConfig.CABundle →
        webhook'.ClientConfig.CABundle =
          (Sample.hook "hook-a" []).ClientConfig.CABundle ++ Sample.stored.CACert) ∧
      Sample.stored.CACert <:+: webhook'.ClientConfig.CABundle ∧
      (Sample.hook "hook-a" []).ClientConfig.CABundle <+: webhook'.ClientConfig.CABundle :=
  ⟨by decide, by decide,
    syncSecretWithWebhook_merges_ca (Sample.hook "hook-a" [])
      (Sample.readWriterA.toCertsHandler sampleLib) (Sample.start [Sample.goodSecretA])
      (Sample.served [Sample.goodSecretA] [] [.Skip "hook-a"])
      (Sample.served [Sample.goodSecretA] [.getSecret "ns1" "sec-a"]
        [.Skip "hook-a", .Read "hook-a"])
      Sample.stored (by decide) (by decide)⟩

/-! ## The annotation map -/

/-- C8: For every supported resource with a non-nil annotation map, the factory builds a handler
whose `Skip(name)` is `false` exactly when the resource has an annotation whose key is the fixed
start `secret.certprovisioner.kubernetes.io/` followed by `name`; the map of the handler is the
one collected from the annotations whose key has that start, so the others contribute nothing. -/
theorem New_skip_iff_annotated {σ : Type} (s : SecretCertsReadWriterFactory σ)
    (webhookConfiguration : RuntimeObject) (accessor : ObjectMeta)
    (annotations : List (String × String))
    (hsupported : metaAccessor webhookConfiguration = .ok accessor)
    (hannotations : accessor.Annotations = some annotations) :
    ∃ ch, s.New webhookConfiguration = .ok (some ch) ∧
      (∀ name, ch.Skip name = false ↔
        ∃ v, (SecretCertInjectionAnnotationKeyPrefix ++ name, v) ∈ annotations) ∧
      ch.webhookToSecrets =
        collectWebhookToSecret
          (annotations.filter fun kv => HasPrefix kv.1 SecretCertInjectionAnnotationKeyPrefix) :=
  factory_New_spec s webhookConfiguration accessor annotations hsupported hannotations

/-- The factory on the configuration `twoHooks`, whose annotation map holds two entries. -/
theorem New_skip_iff_annotated_witness :
    metaAccessor (.Mutating Sample.twoHooks) =
      .ok (Sample.objectMeta (some [Sample.annotationA, Sample.annotationB])) ∧
    (Sample.objectMeta (some [Sample.annotationA, Sample.annotationB])).Annotations =
      some [Sample.annotationA, Sample.annotationB] ∧
    ∃ ch, Sample.factory.New (.Mutating Sample.twoHooks) = .ok (some ch) ∧
      (∀ name, ch.Skip name = false ↔
        ∃ v, (SecretCertInjectionAnnotationKeyPrefix ++ name, v) ∈
          [Sample.annotationA, Sample.annotationB]) ∧
      ch.webhookToSecrets =
        collectWebhookToSecret
          ([Sample.annotationA, Sample.annotationB].filter fun kv =>
            HasPrefix kv.1 SecretCertInjectionAnnotationKeyPrefix) :=
  ⟨rfl, rfl,
    New_skip_iff_annotated Sample.factory (.Mutating Sample.twoHooks)
      (Sample.objectMeta (some [Sample.annotationA, Sample.annotationB]))
      [Sample.annotationA, Sample.annotationB] rfl rfl⟩

/-! ## Persistence -/

/-- C6: Persist exactly when changed. For a supported resource on which the factory succeeds
and the per-entry loop completes with the clone `cloned`: when the original is deeply equal to
the clone, `Sync` returns nil in the state the loop left; when it is not, `Sync` is the single
call `update cloned`, whose result and effect are those of the store's update of the wrapped
configuration; the `update` calls that `Sync` adds to the record are none in the first case and
exactly `update cloned` in the second. -/
theorem Sync_persists_exactly_when_changed {σ : Type}
    (bc : GenericWebhookConfigurationController σ) (webhookConfiguration : RuntimeObject)
    (webhookConfig cloned : webhookConfigElement) (certsHander : Option (CertsHandler σ))
    (x x2 : Exec σ) (w1 : σ)
    (hsupported : newWebhookElement webhookConfiguration = .ok webhookConfig)
    (hnew : bc.CertsHandlerFactory.New webhookConfiguration x.world = (.ok certsHander, w1))
    (hloop : reconcile certsHander webhookConfig { x with world := w1 } = (some cloned, x2)) :
    (webhookConfig.deepEqual cloned = true →
      bc.Sync webhookConfiguration x = (.ok (), x2)) ∧
    (webhookConfig.deepEqual cloned = false →
      bc.Sync webhookConfiguration x =
        x2.call (.update cloned) (bc.KubernetesClientSet.updateElement cloned)) ∧
    (bc.Sync webhookConfiguration x).2.calls.filter Call.isUpdate =
      x.calls.filter Call.isUpdate ++
        (if webhookConfig.deepEqual cloned = true then [] else [.update cloned]) :=
  Sync_of_reconcile bc webhookConfiguration webhookConfig cloned certsHander x x2 w1 hsupported
    hnew hloop

/-- The persistence step on `twoHooks` with a stored secret for `hook-b`: the loop completes
with a clone that differs from the original, and `Sync` issues the one `update`. -/
theorem Sync_persists_exactly_when_changed_witness :
    newWebhookElement (.Mutating Sample.twoHooks) =
      .ok (newMutatingWebhookElement Sample.twoHooks) ∧
    (Cluster.controller sampleLib Sample.fresh).CertsHandlerFactory.New
        (.Mutating Sample.twoHooks) (Sample.start [Sample.brokenSecretA, Sample.goodSecretB]).world =
      (.ok (Cluster.handlerOf sampleLib Sample.fresh (.Mutating Sample.twoHooks)
          (Sample.start [Sample.brokenSecretA, Sample.goodSecretB]).world),
        (Sample.start [Sample.brokenSecretA, Sample.goodSecretB]).world) ∧
    reconcile
        (Cluster.handlerOf sampleLib Sample.fresh (.Mutating Sample.twoHooks)
          (Sample.start [Sample.brokenSecretA, Sample.goodSecretB]).world)
        (newMutatingWebhookElement Sample.twoHooks)
        { Sample.start [Sample.brokenSecretA, Sample.goodSecretB] with
          world := (Sample.start [Sample.brokenSecretA, Sample.goodSecretB]).world } =
      (some (.mutatingWebhookElement Sample.twoHooksSynced),
        Sample.served [Sample.brokenSecretA, Sample.goodSecretB]
          [.getSecret "ns1" "sec-a", .getSecret "ns1" "sec-b"]
          [.Skip "hook-a", .Read "hook-a", .Skip "hook-b", .Read "hook-b"]) ∧
    (((newMutatingWebhookElement Sample.twoHooks).deepEqual
          (.mutatingWebhookElement Sample.twoHooksSynced) = true →
      (Cluster.controller sampleLib Sample.fresh).Sync (.Mutating Sample.twoHooks)
          (Sample.start [Sample.brokenSecretA, Sample.goodSecretB]) =
        (.ok (),
          Sample.served [Sample.brokenSecretA, Sample.goodSecretB]
            [.getSecret "ns1" "sec-a", .getSecret "ns1" "sec-b"]
            [.Skip "hook-a", .Read "hook-a", .Skip "hook-b", .Read "hook-b"])) ∧
    ((newMutatingWebhookElement Sample.twoHooks).deepEqual
          (.mutatingWebhookElement Sample.twoHooksSynced) = false →
      (Cluster.controller sampleLib Sample.fresh).Sync (.Mutating Sample.twoHooks)
          (Sample.start [Sample.brokenSecretA, Sample.goodSecretB]) =
        (Sample.served [Sample.brokenSecretA, Sample.goodSecretB]
            [.getSecret "ns1" "sec-a", .getSecret "ns1" "sec-b"]
            [.Skip "hook-a", .Read "hook-a", .Skip "hook-b", .Read "hook-b"]).call
          (.update (.mutatingWebhookElement Sample.twoHooksSynced))
          ((Cluster.controller sampleLib Sample.fresh).KubernetesClientSet.updateElement
            (.mutatingWebhookElement Sample.twoHooksSynced))) ∧
    ((Cluster.controller sampleLib Sample.fresh).Sync (.Mutating Sample.twoHooks)
          (Sample.start [Sample.brokenSecretA, Sample.goodSecretB])).2.calls.filter
        Call.isUpdate =
      (Sample.start [Sample.brokenSecretA, Sample.goodSecretB]).calls.filter Call.isUpdate ++
        (if (newMutatingWebhookElement Sample.twoHooks).deepEqual
              (.mutatingWebhookElement Sample.twoHooksSynced) = true then []
          else [.update (.mutatingWebhookElement Sample.twoHooksSynced)])) :=
  ⟨rfl, rfl, by decide,
    Sync_persists_exactly_when_changed (Cluster.controller sampleLib Sample.fresh)
      (.Mutating Sample.twoHooks) (newMutatingWebhookElement Sample.twoHooks)
      (.mutatingWebhookElement Sample.twoHooksSynced)
      (Cluster.handlerOf sampleLib Sample.fresh (.Mutating Sample.twoHooks)
        (Sample.start [Sample.brokenSecretA, Sample.goodSecretB]).world)
      (Sample.start [Sample.brokenSecretA, Sample.goodSecretB])
      (Sample.served [Sample.brokenSecretA, Sample.goodSecretB]
        [.getSecret "ns1" "sec-a", .getSecret "ns1" "sec-b"]
        [.Skip "hook-a", .Read "hook-a", .Skip "hook-b", .Read "hook-b"])
      (Sample.start [Sample.brokenSecretA, Sample.goodSecretB]).world rfl rfl (by decide)⟩

/-! ## Webhooks without annotation -/

/-- C2: For a supported resource handled by the secret-backed factory and a webhook entry at
position `i` whose name has no secret annotation, the calls that `Sync` issues contain no `Read`
and no `Write` for that name (so no secret is read, created or updated for it), every element
passed to `update` holds the entry unchanged at position `i`, and so does the clone that `Sync`
compares with the original. -/
theorem Sync_leaves_unannotated_entries {σ : Type} (lib : Lib)
    (s : SecretCertsReadWriterFactory σ) (bc : GenericWebhookConfigurationController σ)
    (webhookConfiguration : RuntimeObject) (webhookConfig : webhookConfigElement)
    (accessor : ObjectMeta) (x : Exec σ) (i : Nat) (entry : Webhook)
    (hfactory : bc.CertsHandlerFactory = s.toCertsHandlerFactory lib)
    (hsupported : newWebhookElement webhookConfiguration = .ok webhookConfig)
    (hmeta : metaAccessor webhookConfiguration = .ok accessor)
    (hentry : webhookConfig.getWebhooks[i]? = some entry)
    (hplain : ∀ v, (SecretCertInjectionAnnotationKeyPrefix ++ entry.Name, v) ∉
      accessor.Annotations.getD []) :
    (∃ cs, (bc.Sync webhookConfiguration x).2.calls = x.calls ++ cs ∧
      Call.Read entry.Name ∉ cs ∧ Call.Write entry.Name ∉ cs ∧
      ∀ e, Call.update e ∈ cs → e.getWebhooks[i]? = some entry) ∧
    ∀ certsHander w1 cloned x2,
      bc.CertsHandlerFactory.New webhookConfiguration x.world = (.ok certsHander, w1) →
      reconcile certsHander webhookConfig { x with world := w1 } = (some cloned, x2) →
      cloned.getWebhooks[i]? = some entry := by
  have hskip : ∀ certsHander w1,
      bc.CertsHandlerFactory.New webhookConfiguration x.world = (.ok certsHander, w1) →
      skipsAlways certsHander entry.Name := by
    intro certsHander w1 hnew
    rw [hfactory] at hnew
    exact (factory_skips_unannotated lib s _ accessor entry.Name _ _ _ hmeta hplain hnew).1
  have hcloned : ∀ certsHander w1 cloned x2,
      bc.CertsHandlerFactory.New webhookConfiguration x.world = (.ok certsHander, w1) →
      reconcile certsHander webhookConfig { x with world := w1 } = (some cloned, x2) →
      cloned.getWebhooks[i]? = some entry := by
    intro certsHander w1 cloned x2 hnew hloop
    exact reconcile_result _ _ _ _ _ hloop i entry hentry (hskip _ _ hnew)
  refine ⟨?_, hcloned⟩
  rcases hnew : bc.CertsHandlerFactory.New webhookConfiguration x.world with ⟨r, w1⟩
  rcases r with certsHander | e | _
  · obtain ⟨cs, hcs, hm⟩ := reconcile_calls certsHander webhookConfig { x with world := w1 }
    have hno : Call.Read entry.Name ∉ cs ∧ Call.Write entry.Name ∉ cs ∧
        ∀ e, Call.update e ∉ cs := by
      refine ⟨?_, ?_, ?_⟩
      · intro hc
        obtain ⟨w, _, hw | ⟨hw | hw, hns⟩⟩ := hm _ hc
        · cases hw
        · simp only [Call.Read.injEq] at hw
          rw [← hw] at hns
          exact hns (hskip _ _ hnew)
        · cases hw
      · intro hc
        obtain ⟨w, _, hw | ⟨hw | hw, hns⟩⟩ := hm _ hc
        · cases hw
        · cases hw
        · simp only [Call.Write.injEq] at hw
          rw [← hw] at hns
          exact hns (hskip _ _ hnew)
      · intro e hc
        obtain ⟨w, _, hw | ⟨hw | hw, _⟩⟩ := hm _ hc <;> cases hw
    rcases hloop : reconcile certsHander webhookConfig { x with world := w1 } with ⟨o, x2⟩
    rw [hloop] at hcs
    simp only at hcs
    cases o with
    | none =>
      obtain ⟨webhookClient, hclient⟩ := newWebhookClient_of_supported bc _ _ hsupported
      refine ⟨cs, ?_, hno.1, hno.2.1, fun e he => absurd he (hno.2.2 e)⟩
      simp only [GenericWebhookConfigurationController.Sync, hnew, hclient, hsupported, hloop, hcs]
    | some cloned =>
      obtain ⟨h1, h2, _⟩ := Sync_of_reconcile bc webhookConfiguration
        webhookConfig cloned certsHander x x2 w1 hsupported hnew hloop
      by_cases hc : webhookConfig.deepEqual cloned = true
      · refine ⟨cs, ?_, hno.1, hno.2.1, fun e he => absurd he (hno.2.2 e)⟩
        rw [h1 hc, hcs]
      · refine ⟨cs ++ [.update cloned], ?_, ?_, ?_, ?_⟩
        · rw [h2 (by simpa using hc)]
          simp [Exec.call, hcs]
        · simp [hno.1]
        · simp [hno.2.1]
        · intro e he
          rcases List.mem_append.1 he with he | he
          · exact absurd he (hno.2.2 e)
          · simp only [List.mem_singleton, Call.update.injEq] at he
            rw [he]
            exact hcloned _ _ _ _ hnew hloop
  · obtain ⟨webhookClient, hclient⟩ := newWebhookClient_of_supported bc _ _ hsupported
    exact ⟨[], by simp [GenericWebhookConfigurationController.Sync, hnew], by simp, by simp,
      by simp⟩
  · exact ⟨[], by simp [GenericWebhookConfigurationController.Sync, hnew], by simp, by simp,
      by simp⟩

/-- The webhook `hook-c` of the configuration `mixed` has no annotation. -/
theorem Sync_leaves_unannotated_entries_witness :
    (Cluster.controller sampleLib Sample.fresh).CertsHandlerFactory =
      Sample.factory.toCertsHandlerFactory sampleLib ∧
    newWebhookElement (.Mutating Sample.mixed) = .ok (newMutatingWebhookElement Sample.mixed) ∧
    metaAccessor (.Mutating Sample.mixed) = .ok (Sample.objectMeta (some [Sample.annotationA])) ∧
    (newMutatingWebhookElement Sample.mixed).getWebhooks[1]? = some (Sample.hook "hook-c" [5]) ∧
    (∀ v, (SecretCertInjectionAnnotationKeyPrefix ++ (Sample.hook "hook-c" [5]).Name, v) ∉
      (Sample.objectMeta (some [Sample.annotationA])).Annotations.getD []) ∧
    ((∃ cs,
        ((Cluster.controller sampleLib Sample.fresh).Sync (.Mutating Sample.mixed)
            (Sample.start [Sample.goodSecretA])).2.calls =
          (Sample.start [Sample.goodSecretA]).calls ++ cs ∧
        Call.Read (Sample.hook "hook-c" [5]).Name ∉ cs ∧
        Call.Write (Sample.hook "hook-c" [5]).Name ∉ cs ∧
        ∀ e, Call.update e ∈ cs → e.getWebhooks[1]? = some (Sample.hook "hook-c" [5])) ∧
      ∀ certsHander w1 cloned x2,
        (Cluster.controller sampleLib Sample.fresh).CertsHandlerFactory.New
            (.Mutating Sample.mixed) (Sample.start [Sample.goodSecretA]).world =
          (.ok certsHander, w1) →
        reconcile certsHander (newMutatingWebhookElement Sample.mixed)
            { Sample.start [Sample.goodSecretA] with world := w1 } = (some cloned, x2) →
        cloned.getWebhooks[1]? = some (Sample.hook "hook-c" [5])) :=
  have hplain : ∀ v,
      (SecretCertInjectionAnnotationKeyPrefix ++ (Sample.hook "hook-c" [5]).Name, v) ∉
        (Sample.objectMeta (some [Sample.annotationA])).Annotations.getD [] := by
    intro v h
    have hkey : SecretCertInjectionAnnotationKeyPrefix ++ (Sample.hook "hook-c" [5]).Name =
        Sample.annotationA.1 := congrArg Prod.fst (List.mem_singleton.1 h)
    exact absurd hkey (by decide)
  ⟨rfl, rfl, rfl, rfl, hplain,
    Sync_leaves_unannotated_entries sampleLib Sample.factory
      (Cluster.controller sampleLib Sample.fresh) (.Mutating Sample.mixed)
      (newMutatingWebhookElement Sample.mixed) (Sample.objectMeta (some [Sample.annotationA]))
      (Sample.start [Sample.goodSecretA]) 1 (Sample.hook "hook-c" [5]) rfl rfl rfl rfl hplain⟩

/-! ## Resources without annotations -/

/-- C7: For the mutating configuration without annotations and with one webhook, the factory
returns the nil handler and no error, and `Sync` panics at the first webhook: it does not
return. Nothing was read, written or updated before the panic. -/
theorem Sync_faults_on_nil_handler :
    isNilWithoutError
        ((Cluster.controller sampleLib Sample.fresh).CertsHandlerFactory.New
          (.Mutating Sample.plainMutating) (Sample.start []).world).1 = true ∧
    (Cluster.controller sampleLib Sample.fresh).Sync (.Mutating Sample.plainMutating)
        (Sample.start []) = (.fault, Sample.start []) := by
  decide

/-- C3: For the validating configuration without annotations whose one webhook already holds the
CA in its bundle, no entry is annotated, so every annotated entry is settled; `Sync` does not
return nil but panics on the nil handler. -/
theorem Sync_faults_on_settled_resource :
    (Cluster.controller sampleLib Sample.fresh).Sync (.Validating Sample.plainValidating)
        (Sample.start [Sample.goodSecretA]) = (.fault, Sample.start [Sample.goodSecretA]) := by
  decide

/-- With a non-nil annotation map the no-op holds on a cluster: when every webhook of a supported
resource is settled in the cache of the informer, which is where `Read` looks, `Sync` returns
nil, issues only `Skip` and `Read` calls (no `Write`, no `update`) and leaves the secrets of
the store and of the cache as they are. -/
theorem Sync_idempotent_of_annotations (lib : Lib) (certs0 : Certs)
    (webhookConfiguration : RuntimeObject) (webhookConfig : webhookConfigElement)
    (accessor : ObjectMeta) (annotations : List (String × String)) (x : Exec Cluster)
    (hsupported : newWebhookElement webhookConfiguration = .ok webhookConfig)
    (hmeta : metaAccessor webhookConfiguration = .ok accessor)
    (hannotations : accessor.Annotations = some annotations)
    (hsettled : ∀ entry ∈ webhookConfig.getWebhooks,
      settled x.world.cache (collectWebhookToSecret annotations) entry) :
    ∃ x' cs, (Cluster.controller lib certs0).Sync webhookConfiguration x = (.ok (), x') ∧
      (x'.world.secrets = x.world.secrets ∧ x'.world.cache = x.world.cache) ∧
      x'.calls = x.calls ++ cs ∧
      ∀ c ∈ cs, ∃ n, c = .Skip n ∨ c = .Read n := by
  have hnew : ∃ rw : secretCertsReadWriter Cluster,
      rw.kubernetesInformers = Cluster.informers ∧
      rw.webhookToSecrets = collectWebhookToSecret annotations ∧
      (Cluster.controller lib certs0).CertsHandlerFactory.New webhookConfiguration x.world =
        (.ok (some (rw.toCertsHandler lib)), x.world) := by
    refine ⟨{ kubernetesClientSet := Cluster.clientSet
              kubernetesInformers := Cluster.informers
              webhookConfig := webhookConfig
              webhookMap := []
              webhookToSecrets := collectWebhookToSecret annotations
              getCertProvisioner := Cluster.fixedProvisioner certs0 }, rfl, rfl, ?_⟩
    cases webhookConfiguration with
    | Mutating typed =>
      simp only [metaAccessor, Except.ok.injEq] at hmeta
      simp only [newWebhookElement, Except.ok.injEq] at hsupported
      subst hmeta hsupported
      simp only [Cluster.controller, SecretCertsReadWriterFactory.toCertsHandlerFactory,
        SecretCertsReadWriterFactory.New, metaAccessor, hannotations]
    | Validating typed =>
      simp only [metaAccessor, Except.ok.injEq] at hmeta
      simp only [newWebhookElement, Except.ok.injEq] at hsupported
      subst hmeta hsupported
      simp only [Cluster.controller, SecretCertsReadWriterFactory.toCertsHandlerFactory,
        SecretCertsReadWriterFactory.New, metaAccessor, hannotations]
    | Other typeName => simp [metaAccessor] at hmeta
  obtain ⟨rw, hinf, hmap, hnew⟩ := hnew
  obtain ⟨webhookClient, hclient⟩ :=
    newWebhookClient_of_supported (Cluster.controller lib certs0) _ _ hsupported
  obtain ⟨x', cs, hl, hs, hc, hm⟩ := syncWebhooks_settled lib rw webhookConfig.getWebhooks x hinf
    (by rw [hmap]; exact hsettled)
  have hcopy : webhookConfig.deepCopy = webhookConfig := by cases webhookConfig <;> rfl
  have hset : webhookConfig.setWebhooks webhookConfig.getWebhooks = webhookConfig := by
    cases webhookConfig <;> rfl
  have hrec : reconcile (some (rw.toCertsHandler lib)) webhookConfig
      { x with world := x.world } = (some webhookConfig, x') := by
    simp only [reconcile, hcopy]
    rw [show ({ x with world := x.world } : Exec Cluster) = x from rfl, hl]
    simp [hset]
  refine ⟨x', cs, ?_, hs, hc, hm⟩
  simp only [GenericWebhookConfigurationController.Sync, hnew, hclient, hsupported, hrec,
    (deepEqual_iff _ _).2 rfl, if_true]

/-! ## The secret-backed handler -/

/-- C4: First sync. For the configuration with the one webhook `hook-a`, empty bundle, annotated
to `ns1/sec-a`, on a cluster without secrets and with a provisioner that succeeds, `Sync` skips
nothing, reads, gets not-found, calls `Write` and panics there: the handler built by the factory
has an empty `webhookMap`. No secret is created and `update` is not called. -/
theorem Sync_faults_on_first_sync :
    (Cluster.controller sampleLib Sample.fresh).Sync (.Mutating Sample.firstSync)
        (Sample.start []) =
      (.fault,
        Sample.served [] [.getSecret "ns1" "sec-a"]
          [.Skip "hook-a", .Read "hook-a", .Write "hook-a"]) := by
  decide

/-- The panic of the first sync is general: in a handler that the factory built, `Write` panics
for every name bound in the annotation map, before it touches the world. -/
theorem Write_faults_after_New {σ : Type} (lib : Lib) (s : SecretCertsReadWriterFactory σ)
    (webhookConfiguration : RuntimeObject) (ch : secretCertsReadWriter σ) (webhookName : String)
    (w : σ) (hnew : s.New webhookConfiguration = .ok (some ch))
    (hbound : ch.Skip webhookName = false) :
    ch.Write lib webhookName w = (.fault, w) := by
  have hmap : ch.webhookMap = [] := by
    unfold SecretCertsReadWriterFactory.New at hnew
    cases webhookConfiguration with
    | Mutating typed =>
      simp only [metaAccessor] at hnew
      cases hann : typed.ObjectMeta.Annotations with
      | none => simp [hann] at hnew
      | some annotations =>
        simp only [hann, Res.ok.injEq, Option.some.injEq] at hnew
        rw [← hnew]
    | Validating typed =>
      simp only [metaAccessor] at hnew
      cases hann : typed.ObjectMeta.Annotations with
      | none => simp [hann] at hnew
      | some annotations =>
        simp only [hann, Res.ok.injEq, Option.some.injEq] at hnew
        rw [← hnew]
    | Other typeName => simp at hnew
  cases hsec : ch.webhookToSecrets.lookup webhookName with
  | none => simp [secretCertsReadWriter.Skip, hsec] at hbound
  | some sec => simp [secretCertsReadWriter.Write, hsec, hmap]

/-- C9, as stated, fails: for `hook-a`, whose secret `ns1/sec-a` exists, `Write` returns the
stored certificates, which are not the ones the provisioner hands out, and the cluster has
served the lister only; the secret is as it was. -/
theorem Write_keeps_existing_secret :
    Sample.readWriterA.Write sampleLib "hook-a" (Sample.start [Sample.goodSecretA]).world =
      (.ok Sample.stored,
        { secrets := [Sample.goodSecretA], actions := [.getSecret "ns1" "sec-a"] }) ∧
    Sample.stored ≠ Sample.fresh := by
  decide

/-- C9, amended: `Write` on an existing secret does not overwrite it. For a name bound in both
maps of the handler, with a common name and a provisioner at hand, whose secret the lister
returns: `Write` returns the certificates decoded from the stored secret (or the decoding error
when a key is missing) in the state the lister left, so it calls neither `ProvisionServingCert`
nor create nor update. -/
theorem Write_existing_returns_stored {σ : Type} (lib : Lib) (s : secretCertsReadWriter σ)
    (webhookName commonName : String) (sec : NamespacedName) (webhook : Webhook)
    (cp : CertProvisioner σ) (secret : Secret) (w w1 w2 : σ)
    (hsec : s.webhookToSecrets.lookup webhookName = some sec)
    (hwebhook : s.webhookMap.lookup webhookName = some webhook)
    (hname : webhookClientConfigToCommonName lib webhook.ClientConfig = .ok commonName)
    (hcp : s.getCertProvisioner commonName w = (.ok cp, w1))
    (hget : s.kubernetesInformers.SecretsGet sec.Namespace sec.Name w1 = (.ok secret, w2)) :
    s.Write lib webhookName w =
      match secretToCerts secret with
      | .ok certs => (.ok certs, w2)
      | .error e => (.err e, w2) := by
  simp only [secretCertsReadWriter.Write, hsec, hwebhook, hname, hcp, andThen, hget,
    validCertInSecret]
  cases secretToCerts secret <;> simp

/-- `Write` for `hook-a` on a cluster that holds its secret. -/
theorem Write_existing_returns_stored_witness :
    Sample.readWriterA.webhookToSecrets.lookup "hook-a" =
      some { Namespace := "ns1", Name := "sec-a" } ∧
    Sample.readWriterA.webhookMap.lookup "hook-a" = some (Sample.hook "hook-a" []) ∧
    webhookClientConfigToCommonName sampleLib (Sample.hook "hook-a" []).ClientConfig =
      .ok "svc.default.svc" ∧
    Sample.readWriterA.getCertProvisioner "svc.default.svc"
        (Sample.start [Sample.goodSecretA]).world =
      (.ok { ProvisionServingCert := fun c => (.ok Sample.fresh, c) },
        (Sample.start [Sample.goodSecretA]).world) ∧
    Sample.readWriterA.kubernetesInformers.SecretsGet "ns1" "sec-a"
        (Sample.start [Sample.goodSecretA]).world =
      (.ok Sample.goodSecretA,
        { secrets := [Sample.goodSecretA], actions := [.getSecret "ns1" "sec-a"] }) ∧
    Sample.readWriterA.Write sampleLib "hook-a" (Sample.start [Sample.goodSecretA]).world =
      match secretToCerts Sample.goodSecretA with
      | .ok certs =>
        (.ok certs, { secrets := [Sample.goodSecretA], actions := [.getSecret "ns1" "sec-a"] })
      | .error e =>
        (.err e, { secrets := [Sample.goodSecretA], actions := [.getSecret "ns1" "sec-a"] }) :=
  ⟨rfl, rfl, rfl, rfl, rfl,
    Write_existing_returns_stored sampleLib Sample.readWriterA "hook-a" "svc.default.svc"
      { Namespace := "ns1", Name := "sec-a" } (Sample.hook "hook-a" [])
      { ProvisionServingCert := fun c => (.ok Sample.fresh, c) } Sample.goodSecretA
      (Sample.start [Sample.goodSecretA]).world (Sample.start [Sample.goodSecretA]).world
      { secrets := [Sample.goodSecretA], actions := [.getSecret "ns1" "sec-a"] }
      rfl rfl rfl rfl rfl⟩

/-- C10, as stated, fails: on a cluster without secrets `Write` for `hook-a` succeeds and creates
the secret `ns1/sec-a` in the store through the clientset; the `Read` that follows at once asks
the lister, whose cache has not received the secret, and returns not-found. -/
theorem Read_after_create_is_not_found :
    Sample.readWriterA.Write sampleLib "hook-a" (Sample.start []).world =
      (.ok Sample.fresh, Sample.afterCreate) ∧
    Sample.readWriterA.Read "hook-a" Sample.afterCreate =
      (.err (.status .NotFound), Sample.afterCreate.record (.getSecret "ns1" "sec-a")) ∧
    Sample.afterCreate.findSecret "ns1" "sec-a" = some Sample.createdA ∧
    Sample.afterCreate.findCached "ns1" "sec-a" = none := by
  decide

/-- C10, amended: Write/Read round trip through the cache of the informer. For a handler over
the cluster whose provisioner leaves the cluster alone, when `Write(name)` succeeds: if the
cache held a secret for the name, `Write` wrote nothing and the `Read(name)` that follows at
once returns the same certificates; if the cache held none, `Write` created the secret in the
store and left the cache as it was, the `Read(name)` that follows at once returns not-found,
and a `Read(name)` in any state whose cache holds the created secret returns the same
certificates. -/
theorem Write_then_Read_through_cache (lib : Lib) (s : secretCertsReadWriter Cluster)
    (webhookName : String) (c c' : Cluster) (certs : Certs)
    (hinformers : s.kubernetesInformers = Cluster.informers)
    (hclientset : s.kubernetesClientSet = Cluster.clientSet)
    (hprovisioner : provisionerLeavesCluster s)
    (hwrite : s.Write lib webhookName c = (.ok certs, c')) :
    ∃ sec, s.webhookToSecrets.lookup webhookName = some sec ∧
      (c.findCached sec.Namespace sec.Name ≠ none →
        c'.secrets = c.secrets ∧ c'.cache = c.cache ∧
        s.Read webhookName c' =
          (.ok certs, c'.record (.getSecret sec.Namespace sec.Name))) ∧
      (c.findCached sec.Namespace sec.Name = none →
        c'.secrets = c.secrets ++ [certsToSecret certs sec] ∧ c'.cache = c.cache ∧
        s.Read webhookName c' =
          (.err (.status .NotFound), c'.record (.getSecret sec.Namespace sec.Name)) ∧
        ∀ c'' : Cluster,
          c''.findCached sec.Namespace sec.Name = some (certsToSecret certs sec) →
          s.Read webhookName c'' =
            (.ok certs, c''.record (.getSecret sec.Namespace sec.Name))) := by
  unfold secretCertsReadWriter.Write at hwrite
  cases hsec : s.webhookToSecrets.lookup webhookName with
  | none => simp [hsec] at hwrite
  | some sec =>
    refine ⟨sec, rfl, ?_⟩
    cases hwebhook : s.webhookMap.lookup webhookName with
    | none => simp [hsec, hwebhook] at hwrite
    | some webhook =>
      cases hname : webhookClientConfigToCommonName lib webhook.ClientConfig with
      | fault => simp [hsec, hwebhook, hname] at hwrite
      | err e => simp [hsec, hwebhook, hname] at hwrite
      | ok commonName =>
        obtain ⟨hstay, hcpstay⟩ := hprovisioner commonName c
        rcases hcp : s.getCertProvisioner commonName c with ⟨r, c1⟩
        rw [hcp] at hstay hcpstay
        simp only at hstay hcpstay
        subst hstay
        rcases r with cp | e | _
        · have hcpstay := hcpstay cp rfl
          simp only [hsec, hwebhook, hname, hcp, andThen, hinformers, hclientset,
            Cluster.informers, Cluster.clientSet, validCertInSecret] at hwrite
          cases hfind : c1.findCached sec.Namespace sec.Name with
          | none =>
            simp only [hfind, IsNotFound, if_true] at hwrite
            have hprov := hcpstay (c1.record (.getSecret sec.Namespace sec.Name))
            rcases hp : cp.ProvisionServingCert (c1.record (.getSecret sec.Namespace sec.Name))
              with ⟨r2, c2⟩
            rw [hp] at hprov
            simp only at hprov
            subst hprov
            rcases r2 with certs0 | e | _
            · simp only [hp] at hwrite
              cases hfind2 : (c1.record (.getSecret sec.Namespace sec.Name)).findSecret
                  (certsToSecret certs0 sec).ObjectMeta.Namespace
                  (certsToSecret certs0 sec).ObjectMeta.Name with
              | some old => simp [hfind2] at hwrite
              | none =>
                simp only [hfind2, Prod.mk.injEq, Res.ok.injEq] at hwrite
                obtain ⟨hc, hw⟩ := hwrite
                subst hc
                have hcached : c'.findCached sec.Namespace sec.Name = none := by
                  rw [← hw]
                  exact hfind
                refine ⟨fun h => absurd rfl h, fun _ => ⟨?_, ?_, ?_, ?_⟩⟩
                · rw [← hw]
                  rfl
                · rw [← hw]
                  rfl
                · exact Read_of_not_cached s webhookName sec c' hinformers hsec hcached
                · intro c'' hc''
                  exact Read_of_cached s webhookName sec _ certs0 c'' hinformers hsec hc''
                    (secretToCerts_certsToSecret certs0 sec)
            · simp [hp] at hwrite
            · simp [hp] at hwrite
          | some secret =>
            simp only [hfind] at hwrite
            cases hdec : secretToCerts secret with
            | error e => simp [hdec] at hwrite
            | ok certs1 =>
              simp only [hdec, Bool.not_true, Bool.false_eq_true, if_false, Prod.mk.injEq,
                Res.ok.injEq] at hwrite
              obtain ⟨hc, hw⟩ := hwrite
              subst hc
              have hcached : c'.findCached sec.Namespace sec.Name = some secret := by
                rw [← hw, findCached_record, hfind]
              refine ⟨fun _ => ⟨?_, ?_, ?_⟩, fun h => by simp at h⟩
              · rw [← hw]
                rfl
              · rw [← hw]
                rfl
              · exact Read_of_cached s webhookName sec secret certs1 c' hinformers hsec hcached
                  hdec
        · simp [hsec, hwebhook, hname, hcp, andThen] at hwrite
        · simp [hsec, hwebhook, hname, hcp, andThen] at hwrite

/-- `Write` for `hook-a` on a cluster without secrets, and the `Read` after it. -/
theorem Write_then_Read_through_cache_witness :
    Sample.readWriterA.kubernetesInformers = Cluster.informers ∧
    Sample.readWriterA.kubernetesClientSet = Cluster.clientSet ∧
    provisionerLeavesCluster Sample.readWriterA ∧
    Sample.readWriterA.Write sampleLib "hook-a" (Sample.start []).world =
      (.ok Sample.fresh, Sample.afterCreate) ∧
    ∃ sec, Sample.readWriterA.webhookToSecrets.lookup "hook-a" = some sec ∧
      ((Sample.start []).world.findCached sec.Namespace sec.Name ≠ none →
        Sample.afterCreate.secrets = (Sample.start []).world.secrets ∧
        Sample.afterCreate.cache = (Sample.start []).world.cache ∧
        Sample.readWriterA.Read "hook-a" Sample.afterCreate =
          (.ok Sample.fresh, Sample.afterCreate.record (.getSecret sec.Namespace sec.Name))) ∧
      ((Sample.start []).world.findCached sec.Namespace sec.Name = none →
        Sample.afterCreate.secrets =
          (Sample.start []).world.secrets ++ [certsToSecret Sample.fresh sec] ∧
        Sample.afterCreate.cache = (Sample.start []).world.cache ∧
        Sample.readWriterA.Read "hook-a" Sample.afterCreate =
          (.err (.status .NotFound),
            Sample.afterCreate.record (.getSecret sec.Namespace sec.Name)) ∧
        ∀ c'' : Cluster,
          c''.findCached sec.Namespace sec.Name = some (certsToSecret Sample.fresh sec) →
          Sample.readWriterA.Read "hook-a" c'' =
            (.ok Sample.fresh, c''.record (.getSecret sec.Namespace sec.Name))) :=
  have hprovisioner : provisionerLeavesCluster Sample.readWriterA := fun _ _ =>
    ⟨rfl, fun _ h _ => by cases h; rfl⟩
  ⟨rfl, rfl, hprovisioner, by decide,
    Write_then_Read_through_cache sampleLib Sample.readWriterA "hook-a" (Sample.start []).world
      Sample.afterCreate Sample.fresh rfl rfl hprovisioner (by decide)⟩

/-- Once the cache of the informer holds the secret created for `hook-a`, `Read` returns the
certificates that `Write` returned. -/
theorem Read_after_watch_returns_created :
    Sample.readWriterA.Read "hook-a" Sample.afterWatch =
      (.ok Sample.fresh, Sample.afterWatch.record (.getSecret "ns1" "sec-a")) := by
  decide

/-! ## Decoding and encoding secrets -/

/-- C11: Decoding a secret. `secretToCerts` returns an error exactly when at least one of the
keys `ca-cert.pem`, `cert.pem`, `key.pem` is absent from the data of the secret; when the three
are present, with whatever values (empty ones included), it returns the certificates made of
those values. -/
theorem secretToCerts_error_iff_key_absent (secret : Secret) :
    ((∃ e, secretToCerts secret = .error e) ↔
      (secret.Data.lookup "ca-cert.pem" = none ∨ secret.Data.lookup "cert.pem" = none ∨
        secret.Data.lookup "key.pem" = none)) ∧
    (∀ ca cert key, secret.Data.lookup "ca-cert.pem" = some ca →
      secret.Data.lookup "cert.pem" = some cert → secret.Data.lookup "key.pem" = some key →
      secretToCerts secret = .ok { CACert := ca, Cert := cert, Key := key }) := by
  have hc := secretToCerts_cases secret
  simp only [CACertName, ServerCertName, ServerKeyName] at hc
  constructor
  · cases h1 : secret.Data.lookup "ca-cert.pem" <;> cases h2 : secret.Data.lookup "cert.pem" <;>
      cases h3 : secret.Data.lookup "key.pem" <;> simp [hc, h1, h2, h3]
  · intro ca cert key h1 h2 h3
    simp [hc, h1, h2, h3]

/-- Decoding a secret whose CA certificate is present and empty, and one that lacks two keys. -/
theorem secretToCerts_error_iff_key_absent_witness :
    secretToCerts Sample.emptyCASecret = .ok { CACert := [], Cert := [2], Key := [1] } ∧
    ∃ e, secretToCerts Sample.brokenSecretA = .error e :=
  ⟨(secretToCerts_error_iff_key_absent Sample.emptyCASecret).2 [] [2] [1] rfl rfl rfl,
    (secretToCerts_error_iff_key_absent Sample.brokenSecretA).1.2 (Or.inr (Or.inl rfl))⟩

/-- C19: Secret encode/decode round trip. Decoding the secret that `certsToSecret` builds
succeeds and gives certificates with the same CA certificate, certificate and key; the secret
carries the namespace and the name of the identity, and its data has exactly the three keys
`ca-cert.pem`, `cert.pem` and `key.pem`, each once. -/
theorem secretToCerts_certsToSecret_roundtrip (certs : Certs) (sec : NamespacedName) :
    secretToCerts (certsToSecret certs sec) = .ok certs ∧
    (∃ decoded, secretToCerts (certsToSecret certs sec) = .ok decoded ∧
      decoded.CACert = certs.CACert ∧ decoded.Cert = certs.Cert ∧ decoded.Key = certs.Key) ∧
    (certsToSecret certs sec).ObjectMeta.Namespace = sec.Namespace ∧
    (certsToSecret certs sec).ObjectMeta.Name = sec.Name ∧
    (certsToSecret certs sec).Data.map Prod.fst = ["ca-cert.pem", "key.pem", "cert.pem"] ∧
    (∀ key, key ∈ (certsToSecret certs sec).Data.map Prod.fst ↔
      key = "ca-cert.pem" ∨ key = "cert.pem" ∨ key = "key.pem") := by
  have h := secretToCerts_certsToSecret certs sec
  refine ⟨h, ⟨certs, h, rfl, rfl, rfl⟩, rfl, rfl, rfl, ?_⟩
  intro key
  simp [certsToSecret, CACertName, ServerKeyName, ServerCertName]
  tauto

/-! ## The common name -/

/-- C12: Common name derivation. `webhookClientConfigToCommonName` returns an error when both
service and URL are set and when neither is set; with only a service it returns
`ServiceToCommonName` of the namespace and name of the service, without error; with only a URL
it returns the host of the parsed URL. -/
theorem webhookClientConfigToCommonName_cases (lib : Lib) (config : WebhookClientConfig) :
    (config.Service ≠ none → config.URL ≠ none →
      webhookClientConfigToCommonName lib config = .err .serviceAndURL) ∧
    (config.Service = none → config.URL = none →
      webhookClientConfigToCommonName lib config = .err .neitherServiceNorURL) ∧
    (∀ service, config.Service = some service → config.URL = none →
      webhookClientConfigToCommonName lib config =
        .ok (lib.ServiceToCommonName service.Namespace service.Name)) ∧
    (∀ url u, config.Service = none → config.URL = some url → lib.urlParse url = .ok u →
      webhookClientConfigToCommonName lib config = .ok u.Host) := by
  unfold webhookClientConfigToCommonName
  refine ⟨?_, ?_, ?_, ?_⟩
  · intro h1 h2
    cases hs : config.Service <;> cases hu : config.URL <;> simp_all
  · intro h1 h2
    simp [h1, h2]
  · intro service h1 h2
    simp [h1, h2]
  · intro url u h1 h2 h3
    simp [h1, h2, h3]

/-- The four cases of the common name on sample configurations. -/
theorem webhookClientConfigToCommonName_cases_witness :
    webhookClientConfigToCommonName sampleLib Sample.serviceAndURL = .err .serviceAndURL ∧
    webhookClientConfigToCommonName sampleLib Sample.neither = .err .neitherServiceNorURL ∧
    webhookClientConfigToCommonName sampleLib Sample.serviceOnly = .ok "svc.default.svc" ∧
    webhookClientConfigToCommonName sampleLib (Sample.urlOnly "https://example.com") =
      .ok "example.com" :=
  ⟨(webhookClientConfigToCommonName_cases sampleLib Sample.serviceAndURL).1 (by decide)
      (by decide),
    (webhookClientConfigToCommonName_cases sampleLib Sample.neither).2.1 rfl rfl,
    (webhookClientConfigToCommonName_cases sampleLib Sample.serviceOnly).2.2.1
      { Namespace := "default", Name := "svc", Path := none } rfl rfl,
    (webhookClientConfigToCommonName_cases sampleLib
      (Sample.urlOnly "https://example.com")).2.2.2 "https://example.com"
        { Host := "example.com" } rfl rfl rfl⟩

/-- C20: With only a URL set and a URL that does not parse, `webhookClientConfigToCommonName`
does not return an error value: it reads the host from the nil parse result and panics. -/
theorem webhookClientConfigToCommonName_faults_on_bad_url :
    sampleLib.urlParse "://example.com" = .error (.other "parse error") ∧
    webhookClientConfigToCommonName sampleLib (Sample.urlOnly "://example.com") = .fault :=
  ⟨rfl, by decide⟩

/-- The panic on a URL that does not parse is general: whatever the parser and the URL, a
failed parse of the only target of a client configuration ends in a panic. -/
theorem commonName_faults_on_unparsed_url (lib : Lib) (config : WebhookClientConfig) (url : String)
    (e : Err) (hservice : config.Service = none) (hurl : config.URL = some url)
    (hparse : lib.urlParse url = .error e) :
    webhookClientConfigToCommonName lib config = .fault := by
  simp [webhookClientConfigToCommonName, hservice, hurl, hparse]

/-! ## Elements -/

/-- C15: Element equality. `a.deepEqual(b)` is true exactly when `a` and `b` wrap equal
configurations of the same kind; it is false (a plain boolean, never an error) when the kinds
differ; and every element is deeply equal to its deep copy. -/
theorem deepEqual_iff_same_kind_and_equal :
    (∀ a b : webhookConfigElement, a.deepEqual b = true ↔
      ((∃ w, a = .mutatingWebhookElement w ∧ b = .mutatingWebhookElement w) ∨
        ∃ w, a = .validatingWebhookElement w ∧ b = .validatingWebhookElement w)) ∧
    (∀ a b : webhookConfigElement, a.getType ≠ b.getType → a.deepEqual b = false) ∧
    (∀ e : webhookConfigElement, e.deepEqual e.deepCopy = true) := by
  refine ⟨?_, ?_, ?_⟩
  · intro a b
    cases a <;> cases b <;>
      simp [webhookConfigElement.deepEqual, webhookConfigElement.getMutatingWebhookConfig,
        webhookConfigElement.getValidatingWebhookConfig] <;>
      exact eq_comm
  · intro a b h
    cases a <;> cases b <;>
      simp_all [webhookConfigElement.deepEqual, webhookConfigElement.getMutatingWebhookConfig,
        webhookConfigElement.getValidatingWebhookConfig, webhookConfigElement.getType]
  · intro e
    cases e <;>
      simp [webhookConfigElement.deepEqual, webhookConfigElement.getMutatingWebhookConfig,
        webhookConfigElement.getValidatingWebhookConfig, webhookConfigElement.deepCopy]

/-- C16: Downcast. `getMutatingWebhookConfig` succeeds exactly on elements of type mutating,
`getValidatingWebhookConfig` exactly on elements of type validating; a downcast that succeeds
returns the wrapped configuration; exactly one of the two succeeds and the other returns an
error. -/
theorem downcast_succeeds_iff_type (e : webhookConfigElement) :
    ((∃ w, e.getMutatingWebhookConfig = .ok w) ↔ e.getType = .mutatingWebhookType) ∧
    (∀ w, e.getMutatingWebhookConfig = .ok w ↔ e = .mutatingWebhookElement w) ∧
    ((∃ w, e.getValidatingWebhookConfig = .ok w) ↔ e.getType = .validatingWebhookType) ∧
    (∀ w, e.getValidatingWebhookConfig = .ok w ↔ e = .validatingWebhookElement w) ∧
    (((∃ w, e.getMutatingWebhookConfig = .ok w) ∧
        ∃ err, e.getValidatingWebhookConfig = .error err) ∨
      ((∃ err, e.getMutatingWebhookConfig = .error err) ∧
        ∃ w, e.getValidatingWebhookConfig = .ok w)) := by
  cases e <;>
    simp [webhookConfigElement.getMutatingWebhookConfig,
      webhookConfigElement.getValidatingWebhookConfig, webhookConfigElement.getType]

/-! ## Unsupported objects -/

/-- C13: Unsupported input. For an object that is neither kind of webhook configuration,
`newWebhookElement` and `SecretCertsReadWriterFactory.New` return the unsupported-type error,
and `Sync` with that factory returns it in the state it started in: nothing was read or
written and no call was issued. With any factory whatever, `Sync` does not return nil on such
an object and issues no call. -/
theorem Sync_rejects_unsupported {σ : Type} (lib : Lib) (s : SecretCertsReadWriterFactory σ)
    (bc : GenericWebhookConfigurationController σ) (typeName : String) (x : Exec σ)
    (hfactory : bc.CertsHandlerFactory = s.toCertsHandlerFactory lib) :
    newWebhookElement (.Other typeName) = .error (.unsupportedType typeName) ∧
    s.New (.Other typeName) = .err (.unsupportedType typeName) ∧
    bc.Sync (.Other typeName) x = (.err (.unsupportedType typeName), x) ∧
    ∀ other : GenericWebhookConfigurationController σ,
      (other.Sync (.Other typeName) x).1 ≠ .ok () ∧
      (other.Sync (.Other typeName) x).2.calls = x.calls := by
  refine ⟨rfl, rfl, ?_, ?_⟩
  · simp [GenericWebhookConfigurationController.Sync, hfactory,
      SecretCertsReadWriterFactory.toCertsHandlerFactory, SecretCertsReadWriterFactory.New]
  · intro other
    rcases hnew : other.CertsHandlerFactory.New (.Other typeName) x.world with ⟨r, w1⟩
    rcases r with certsHander | err | _ <;>
      simp [GenericWebhookConfigurationController.Sync, hnew,
        GenericWebhookConfigurationController.newWebhookClient]

/-- `Sync` on an object of type `Secret`, on a cluster that holds a secret. -/
theorem Sync_rejects_unsupported_witness :
    (Cluster.controller sampleLib Sample.fresh).CertsHandlerFactory =
      Sample.factory.toCertsHandlerFactory sampleLib ∧
    newWebhookElement (.Other "Secret") = .error (.unsupportedType "Secret") ∧
    Sample.factory.New (.Other "Secret") = .err (.unsupportedType "Secret") ∧
    (Cluster.controller sampleLib Sample.fresh).Sync (.Other "Secret")
        (Sample.start [Sample.goodSecretA]) =
      (.err (.unsupportedType "Secret"), Sample.start [Sample.goodSecretA]) ∧
    ∀ other : GenericWebhookConfigurationController Cluster,
      (other.Sync (.Other "Secret") (Sample.start [Sample.goodSecretA])).1 ≠ .ok () ∧
      (other.Sync (.Other "Secret") (Sample.start [Sample.goodSecretA])).2.calls =
        (Sample.start [Sample.goodSecretA]).calls :=
  ⟨rfl,
    Sync_rejects_unsupported sampleLib Sample.factory (Cluster.controller sampleLib Sample.fresh)
      "Secret" (Sample.start [Sample.goodSecretA]) rfl⟩

/-! ## What `update` receives -/

/-- C14: `Sync` changes only CA bundles. For a supported resource and a run of `Sync` from an
empty record, every element passed to `update` has the type of the input and, with the
webhooks of the input put back, is the input (same kind, same metadata); it has as many
webhooks as the input, and position by position the name is the same, the webhook is the one of
the input but for its CA bundle, that bundle starts with the bundle of the input, and a webhook
that differs from the input is one for which `Read` was called, that is, one not skipped. -/
theorem Sync_changes_only_bundles {σ : Type} (bc : GenericWebhookConfigurationController σ)
    (webhookConfiguration : RuntimeObject) (webhookConfig e : webhookConfigElement) (w : σ)
    (hsupported : newWebhookElement webhookConfiguration = .ok webhookConfig)
    (hupdate : Call.update e ∈
      (bc.Sync webhookConfiguration { world := w, calls := [] }).2.calls) :
    e.getType = webhookConfig.getType ∧
    e.setWebhooks webhookConfig.getWebhooks = webhookConfig ∧
    e.getWebhooks.length = webhookConfig.getWebhooks.length ∧
    ∀ (i : Nat) (before after : Webhook), webhookConfig.getWebhooks[i]? = some before →
      e.getWebhooks[i]? = some after →
      after.Name = before.Name ∧ onlyBundleExtended before after ∧
      (after ≠ before → Call.Read before.Name ∈
        (bc.Sync webhookConfiguration { world := w, calls := [] }).2.calls) := by
  obtain ⟨webhookClient, hclient⟩ := newWebhookClient_of_supported bc _ _ hsupported
  rcases hnew : bc.CertsHandlerFactory.New webhookConfiguration w with ⟨r, w1⟩
  rcases r with certsHander | err | _
  · have hnone := reconcile_no_update certsHander webhookConfig
      { world := w1, calls := [] } e (by simp)
    rcases hloop : reconcile certsHander webhookConfig { world := w1, calls := [] } with ⟨o, x2⟩
    rw [hloop] at hnone
    simp only at hnone
    cases o with
    | none =>
      simp only [GenericWebhookConfigurationController.Sync, hnew, hclient, hsupported, hloop]
        at hupdate
      exact absurd hupdate hnone
    | some cloned =>
      obtain ⟨h1, h2, _⟩ := Sync_of_reconcile bc webhookConfiguration webhookConfig cloned
        certsHander { world := w, calls := [] } x2 w1 hsupported hnew hloop
      by_cases hd : webhookConfig.deepEqual cloned = true
      · rw [h1 hd] at hupdate
        exact absurd hupdate hnone
      · have hsync := h2 (by simpa using hd)
        rw [hsync] at hupdate ⊢
        simp only [Exec.call, List.mem_append, List.mem_singleton, Call.update.injEq] at hupdate
        rcases hupdate with hupdate | hupdate
        · exact absurd hupdate hnone
        · subst hupdate
          obtain ⟨cs, hcs, ht, hm, hl, hi⟩ := reconcile_frame certsHander webhookConfig e
            { world := w1, calls := [] } x2 hloop
          refine ⟨ht, hm, hl, ?_⟩
          intro i before after hb ha
          obtain ⟨p1, p2, p3⟩ := hi i before after hb ha
          refine ⟨p1, p2, fun hne => ?_⟩
          simp only [Exec.call, List.mem_append]
          left
          rw [hcs]
          simpa using p3 hne
  · simp [GenericWebhookConfigurationController.Sync, hnew] at hupdate
  · simp [GenericWebhookConfigurationController.Sync, hnew] at hupdate

/-- The element that `Sync` passes to `update` on the configuration `twoHooks`. -/
theorem Sync_changes_only_bundles_witness :
    newWebhookElement (.Mutating Sample.twoHooks) =
      .ok (newMutatingWebhookElement Sample.twoHooks) ∧
    Call.update (.mutatingWebhookElement Sample.twoHooksSynced) ∈
      ((Cluster.controller sampleLib Sample.fresh).Sync (.Mutating Sample.twoHooks)
        { world := (Sample.start [Sample.brokenSecretA, Sample.goodSecretB]).world
          calls := [] }).2.calls ∧
    (webhookConfigElement.mutatingWebhookElement Sample.twoHooksSynced).getType =
      (newMutatingWebhookElement Sample.twoHooks).getType ∧
    (webhookConfigElement.mutatingWebhookElement Sample.twoHooksSynced).setWebhooks
        (newMutatingWebhookElement Sample.twoHooks).getWebhooks =
      newMutatingWebhookElement Sample.twoHooks ∧
    (webhookConfigElement.mutatingWebhookElement Sample.twoHooksSynced).getWebhooks.length =
      (newMutatingWebhookElement Sample.twoHooks).getWebhooks.length ∧
    ∀ (i : Nat) (before after : Webhook),
      (newMutatingWebhookElement Sample.twoHooks).getWebhooks[i]? = some before →
      (webhookConfigElement.mutatingWebhookElement Sample.twoHooksSynced).getWebhooks[i]? =
        some after →
      after.Name = before.Name ∧ onlyBundleExtended before after ∧
      (after ≠ before → Call.Read before.Name ∈
        ((Cluster.controller sampleLib Sample.fresh).Sync (.Mutating Sample.twoHooks)
          { world := (Sample.start [Sample.brokenSecretA, Sample.goodSecretB]).world
            calls := [] }).2.calls) :=
  ⟨rfl, by decide,
    Sync_changes_only_bundles (Cluster.controller sampleLib Sample.fresh)
      (.Mutating Sample.twoHooks) (newMutatingWebhookElement Sample.twoHooks)
      (.mutatingWebhookElement Sample.twoHooksSynced)
      (Sample.start [Sample.brokenSecretA, Sample.goodSecretB]).world rfl (by decide)⟩

/-- C17: The wrong-variant branch is unreachable from `Sync`. For a supported resource the
client of `newWebhookClient` has the sub-client for the type of the element of
`newWebhookElement`; the clone that the loop leaves has that type too; and on every element
of that type `update` of the client is the update of the store on the wrapped configuration, so
it returns no downcast error and meets no nil sub-client: its errors are those of the store. -/
theorem update_reaches_store {σ : Type} (bc : GenericWebhookConfigurationController σ)
    (webhookConfiguration : RuntimeObject) (webhookConfig : webhookConfigElement)
    (hsupported : newWebhookElement webhookConfiguration = .ok webhookConfig) :
    ∃ webhookClient, bc.newWebhookClient webhookConfiguration = .ok webhookClient ∧
      (match webhookConfig.getType with
        | .mutatingWebhookType => webhookClient.mutatingWebhookClient.isSome
        | .validatingWebhookType => webhookClient.validatingWebhookClient.isSome) = true ∧
      (∀ (certsHander : Option (CertsHandler σ)) (x x2 : Exec σ) (cloned : webhookConfigElement),
        reconcile certsHander webhookConfig x = (some cloned, x2) →
        cloned.getType = webhookConfig.getType) ∧
      ∀ (e : webhookConfigElement) (w : σ), e.getType = webhookConfig.getType →
        webhookClient.update e w = bc.KubernetesClientSet.updateElement e w := by
  have hrec : ∀ (certsHander : Option (CertsHandler σ)) (x x2 : Exec σ)
      (cloned : webhookConfigElement),
      reconcile certsHander webhookConfig x = (some cloned, x2) →
      cloned.getType = webhookConfig.getType := by
    intro certsHander x x2 cloned h
    obtain ⟨_, _, ht, _⟩ := reconcile_frame certsHander webhookConfig cloned x x2 h
    exact ht
  cases webhookConfiguration with
  | Mutating typed =>
    simp only [newWebhookElement, Except.ok.injEq] at hsupported
    subst hsupported
    refine ⟨_, rfl, rfl, hrec, ?_⟩
    intro e w he
    cases e with
    | mutatingWebhookElement cfg => rfl
    | validatingWebhookElement cfg => cases he
  | Validating typed =>
    simp only [newWebhookElement, Except.ok.injEq] at hsupported
    subst hsupported
    refine ⟨_, rfl, rfl, hrec, ?_⟩
    intro e w he
    cases e with
    | mutatingWebhookElement cfg => cases he
    | validatingWebhookElement cfg => rfl
  | Other typeName => simp [newWebhookElement] at hsupported

/-- The client and the element built for the configuration `twoHooks`. -/
theorem update_reaches_store_witness :
    newWebhookElement (.Mutating Sample.twoHooks) =
      .ok (newMutatingWebhookElement Sample.twoHooks) ∧
    ∃ webhookClient,
      (Cluster.controller sampleLib Sample.fresh).newWebhookClient (.Mutating Sample.twoHooks) =
        .ok webhookClient ∧
      (match (newMutatingWebhookElement Sample.twoHooks).getType with
        | .mutatingWebhookType => webhookClient.mutatingWebhookClient.isSome
        | .validatingWebhookType => webhookClient.validatingWebhookClient.isSome) = true ∧
      (∀ (certsHander : Option (CertsHandler Cluster)) (x x2 : Exec Cluster)
        (cloned : webhookConfigElement),
        reconcile certsHander (newMutatingWebhookElement Sample.twoHooks) x = (some cloned, x2) →
        cloned.getType = (newMutatingWebhookElement Sample.twoHooks).getType) ∧
      ∀ (e : webhookConfigElement) (w : Cluster),
        e.getType = (newMutatingWebhookElement Sample.twoHooks).getType →
        webhookClient.update e w =
          (Cluster.controller sampleLib Sample.fresh).KubernetesClientSet.updateElement e w :=
  ⟨rfl,
    update_reaches_store (Cluster.controller sampleLib Sample.fresh) (.Mutating Sample.twoHooks)
      (newMutatingWebhookElement Sample.twoHooks) rfl⟩

/-! ## Repeating the step -/

/-- C18: The per-entry step is idempotent under byte-identical CA material. When the step on a
webhook is not skipped and obtains certificates, and the step is applied again to the result
in the state the first one left, is again not skipped and obtains certificates with the same CA
bytes, then the second application returns the webhook that the first one returned: the bundle
after two applications is the bundle after one, which is the original bundle or the original
bundle followed by the CA once. -/
theorem syncSecretWithWebhook_twice {σ : Type} (webhook : Webhook) (ch : CertsHandler σ)
    (x x1 x2 x3 x4 : Exec σ) (certs certs' : Certs)
    (hskip : x.call (.Skip webhook.Name) (ch.Skip webhook.Name) = (some false, x1))
    (hcerts : obtainCerts ch webhook.Name x1 = (.ok certs, x2))
    (hskip' : x2.call (.Skip webhook.Name) (ch.Skip webhook.Name) = (some false, x3))
    (hcerts' : obtainCerts ch webhook.Name x3 = (.ok certs', x4))
    (hsame : certs'.CACert = certs.CACert) :
    ∃ once, syncSecretWithWebhook webhook (some ch) x = (.ok (), once, x2) ∧
      syncSecretWithWebhook once (some ch) x2 = (.ok (), once, x4) ∧
      (once.ClientConfig.CABundle = webhook.ClientConfig.CABundle ∨
        once.ClientConfig.CABundle = webhook.ClientConfig.CABundle ++ certs.CACert) := by
  have hname := mergeCABundle_name webhook certs
  have hin : certs'.CACert <:+: (mergeCABundle webhook certs).ClientConfig.CABundle := by
    rw [hsame, mergeCABundle_bundle]
    split
    · assumption
    · exact (List.suffix_append _ _).isInfix
  refine ⟨mergeCABundle webhook certs, ?_, ?_, ?_⟩
  · simp only [syncSecretWithWebhook, hskip, hcerts]
  · simp only [syncSecretWithWebhook, hname, hskip', hcerts',
      mergeCABundle_of_contains _ _ hin]
  · rw [mergeCABundle_bundle]
    split
    · exact Or.inl rfl
    · exact Or.inr rfl

/-- The step applied twice to `hook-a` with an empty bundle and the stored secret `ns1/sec-a`. -/
theorem syncSecretWithWebhook_twice_witness :
    (Sample.start [Sample.goodSecretA]).call (.Skip (Sample.hook "hook-a" []).Name)
        ((Sample.readWriterA.toCertsHandler sampleLib).Skip (Sample.hook "hook-a" []).Name) =
      (some false, Sample.served [Sample.goodSecretA] [] [.Skip "hook-a"]) ∧
    obtainCerts (Sample.readWriterA.toCertsHandler sampleLib) (Sample.hook "hook-a" []).Name
        (Sample.served [Sample.goodSecretA] [] [.Skip "hook-a"]) =
      (.ok Sample.stored,
        Sample.served [Sample.goodSecretA] [.getSecret "ns1" "sec-a"]
          [.Skip "hook-a", .Read "hook-a"]) ∧
    (Sample.served [Sample.goodSecretA] [.getSecret "ns1" "sec-a"]
          [.Skip "hook-a", .Read "hook-a"]).call (.Skip (Sample.hook "hook-a" []).Name)
        ((Sample.readWriterA.toCertsHandler sampleLib).Skip (Sample.hook "hook-a" []).Name) =
      (some false,
        Sample.served [Sample.goodSecretA] [.getSecret "ns1" "sec-a"]
          [.Skip "hook-a", .Read "hook-a", .Skip "hook-a"]) ∧
    obtainCerts (Sample.readWriterA.toCertsHandler sampleLib) (Sample.hook "hook-a" []).Name
        (Sample.served [Sample.goodSecretA] [.getSecret "ns1" "sec-a"]
          [.Skip "hook-a", .Read "hook-a", .Skip "hook-a"]) =
      (.ok Sample.stored,
        Sample.served [Sample.goodSecretA] [.getSecret "ns1" "sec-a", .getSecret "ns1" "sec-a"]
          [.Skip "hook-a", .Read "hook-a", .Skip "hook-a", .Read "hook-a"]) ∧
    Sample.stored.CACert = Sample.stored.CACert ∧
    ∃ once,
      syncSecretWithWebhook (Sample.hook "hook-a" [])
          (some (Sample.readWriterA.toCertsHandler sampleLib))
          (Sample.start [Sample.goodSecretA]) =
        (.ok (), once,
          Sample.served [Sample.goodSecretA] [.getSecret "ns1" "sec-a"]
            [.Skip "hook-a", .Read "hook-a"]) ∧
      syncSecretWithWebhook once (some (Sample.readWriterA.toCertsHandler sampleLib))
          (Sample.served [Sample.goodSecretA] [.getSecret "ns1" "sec-a"]
            [.Skip "hook-a", .Read "hook-a"]) =
        (.ok (), once,
          Sample.served [Sample.goodSecretA]
            [.getSecret "ns1" "sec-a", .getSecret "ns1" "sec-a"]
            [.Skip "hook-a", .Read "hook-a", .Skip "hook-a", .Read "hook-a"]) ∧
      (once.ClientConfig.CABundle = (Sample.hook "hook-a" []).ClientConfig.CABundle ∨
        once.ClientConfig.CABundle =
          (Sample.hook "hook-a" []).ClientConfig.CABundle ++ Sample.stored.CACert) :=
  ⟨by decide, by decide, by decide, by decide, rfl,
    syncSecretWithWebhook_twice (Sample.hook "hook-a" [])
      (Sample.readWriterA.toCertsHandler sampleLib) (Sample.start [Sample.goodSecretA])
      (Sample.served [Sample.goodSecretA] [] [.Skip "hook-a"])
      (Sample.served [Sample.goodSecretA] [.getSecret "ns1" "sec-a"]
        [.Skip "hook-a", .Read "hook-a"])
      (Sample.served [Sample.goodSecretA] [.getSecret "ns1" "sec-a"]
        [.Skip "hook-a", .Read "hook-a", .Skip "hook-a"])
      (Sample.served [Sample.goodSecretA] [.getSecret "ns1" "sec-a", .getSecret "ns1" "sec-a"]
        [.Skip "hook-a", .Read "hook-a", .Skip "hook-a", .Read "hook-a"])
      Sample.stored Sample.stored (by decide) (by decide) (by decide) (by decide) rfl⟩

end WebhookCertManager
